import Mathlib

/-!
# Verification of the api-pool-gateway request-forwarding data plane

Shallow embedding, in Lean 4, of the data-plane core of the `api-pool-gateway`
repository: the cooldown tracker (`backend/core/cooldown.py`), the pool
manager with smooth weighted round-robin selection
(`backend/core/pool_manager.py`), the endpoint statistics update
(`backend/db/crud.py`), the virtual-model resolution
(`backend/api/openai.py` / `backend/api/anthropic.py`) and the forwarder
(`backend/core/forwarder.py`) including its SSE chunk rewriting.

Conventions of the embedding:
* wall-clock instants and durations are natural numbers of seconds
  (`datetime.utcnow()` becomes an explicit `now : Nat` argument);
* latency values and the incrementally maintained mean are rationals
  (the Python code uses floats only for this arithmetic mean);
* Python dictionaries become association lists with first-occurrence
  update semantics (`dictSet` updates in place, otherwise appends —
  exactly the insertion-order behaviour of `dict`);
* fallible Python code (caught exceptions) returns `Option`;
* concurrency is serialized: every operation of the source runs inside a
  single mutex-protected critical section, so the sequential functions
  below are the per-operation semantics;
* timing-dependent behaviour (heartbeat comment frames, backoff sleeps,
  first-chunk timeout) is outside the model: the streaming model keeps
  the sequence of data frames, which is what the claims are about.
-/

set_option autoImplicit false

namespace Gateway

/-! ## Association-list dictionaries (Python `dict` semantics) -/

/-- Lookup of a key in an association list (first occurrence wins; Python
dicts cannot hold duplicate keys, and all our constructors preserve that). -/
def dictGet {κ α : Type} [DecidableEq κ] (m : List (κ × α)) (k : κ) : Option α :=
  match m with
  | [] => none
  | (k', v) :: rest => if k' = k then some v else dictGet rest k

/-- `d[k] = v`: update the first occurrence in place (keeping its position,
as a Python dict does), otherwise append the new binding at the end. -/
def dictSet {κ α : Type} [DecidableEq κ] (m : List (κ × α)) (k : κ) (v : α) : List (κ × α) :=
  match m with
  | [] => [(k, v)]
  | (k', v') :: rest => if k' = k then (k, v) :: rest else (k', v') :: dictSet rest k v

/-- `del d[k]` / `d.pop(k, None)`: remove the binding of `k`, if any. -/
def dictDel {κ α : Type} [DecidableEq κ] (m : List (κ × α)) (k : κ) : List (κ × α) :=
  match m with
  | [] => []
  | (k', v') :: rest => if k' = k then rest else (k', v') :: dictDel rest k

/-! ## Cooldown tracker (`backend/core/cooldown.py`, class `CooldownManager`)

The in-memory map `endpoint_id -> cooldown_until` with lazy expiry.  The
`async with self._lock` critical sections make each operation atomic, so
each method is a plain function of the manager state and the current time. -/

structure CooldownManager where
  default_cooldown_seconds : Nat
  cooldowns : List (Nat × Nat)
deriving DecidableEq, Repr

/-- `CooldownManager.set_cooldown`: `cooldown_seconds = seconds or self.default_cooldown_seconds`
(Python truthiness: both `None` and `0` fall back to the default), then
`self._cooldowns[endpoint_id] = utcnow() + cooldown_seconds`, overwriting any
prior entry. -/
def CooldownManager.set_cooldown (m : CooldownManager) (now : Nat) (endpoint_id : Nat)
    (seconds : Option Nat) : CooldownManager :=
  let cooldown_seconds : Nat :=
    match seconds with
    | none => m.default_cooldown_seconds
    | some s => if s = 0 then m.default_cooldown_seconds else s
  { m with cooldowns := dictSet m.cooldowns endpoint_id (now + cooldown_seconds) }

/-- `CooldownManager.is_cooling`: no entry → false; `utcnow() >= cooldown_until`
→ delete the entry and return false; otherwise true.  Returns the answer
together with the (possibly pruned) manager state. -/
def CooldownManager.is_cooling (m : CooldownManager) (now : Nat) (endpoint_id : Nat) :
    Bool × CooldownManager :=
  match dictGet m.cooldowns endpoint_id with
  | none => (false, m)
  | some cooldown_until =>
    if now ≥ cooldown_until then
      (false, { m with cooldowns := dictDel m.cooldowns endpoint_id })
    else
      (true, m)

/-- `CooldownManager.clear_cooldown`: `self._cooldowns.pop(endpoint_id, None)`. -/
def CooldownManager.clear_cooldown (m : CooldownManager) (endpoint_id : Nat) : CooldownManager :=
  { m with cooldowns := dictDel m.cooldowns endpoint_id }

/-- An endpoint is parked at instant `now`: it has a cooldown entry whose
expiry lies strictly in the future. -/
def parkedP (m : CooldownManager) (now id : Nat) : Prop :=
  ∃ u, dictGet m.cooldowns id = some u ∧ now < u

/-! ## Endpoint statistics (`backend/db/crud.py`, `increment_endpoint_stats`)

The per-endpoint counters of the `model_endpoints` row touched by one
terminal outcome.  `avg_latency_ms` is the float column; we carry it as a
rational.  `last_request_at` is the nullable timestamp column added by
`fix_db_schema.py`. -/

structure EndpointStats where
  total_requests : Nat
  success_requests : Nat
  error_requests : Nat
  avg_latency_ms : ℚ
  last_request_at : Option Nat
deriving DecidableEq, Repr

/-- Column defaults of `models/database.py`: all counters 0, `avg_latency_ms` 0,
`last_request_at` NULL. -/
def EndpointStats.zero : EndpointStats :=
  { total_requests := 0, success_requests := 0, error_requests := 0
    avg_latency_ms := 0, last_request_at := none }

/-- `crud.increment_endpoint_stats` on one endpoint row: `total++`, then on
success `success++`, `avg ← (avg·old_success + latency)/new_success` and
`last_request_at ← utcnow()`; on failure `error++` and the average and
timestamp are written back unchanged. -/
def increment_endpoint_stats (e : EndpointStats) (success : Bool) (latency_ms : ℚ)
    (now : Nat) : EndpointStats :=
  let new_total := e.total_requests + 1
  let new_success := e.success_requests + (if success then 1 else 0)
  let new_error := e.error_requests + (if success then 0 else 1)
  if success then
    let new_avg : ℚ :=
      if new_success > 0 then
        (e.avg_latency_ms * e.success_requests + latency_ms) / new_success
      else latency_ms
    { total_requests := new_total, success_requests := new_success
      error_requests := new_error, avg_latency_ms := new_avg
      last_request_at := some now }
  else
    { e with total_requests := new_total, success_requests := new_success
             error_requests := new_error }

/-- One terminal outcome reported for an endpoint: success flag, the measured
latency and the wall-clock instant of the report. -/
structure Outcome where
  success : Bool
  latency_ms : ℚ
  at_time : Nat
deriving DecidableEq, Repr

/-- Fold a sequence of terminal outcomes over the statistics row. -/
def applyOutcomes (init : EndpointStats) (os : List Outcome) : EndpointStats :=
  os.foldl (fun s o => increment_endpoint_stats s o.success o.latency_ms o.at_time) init

/-- The latencies of the successful outcomes of a run. -/
def successLatencies (os : List Outcome) : List ℚ :=
  (os.filter (·.success)).map (·.latency_ms)

/-- The instant of the last successful outcome, if any. -/
def lastSuccessAt (os : List Outcome) : Option Nat :=
  ((os.filter (·.success)).map (·.at_time)).getLast?

/-! ## String helpers

Python's `in` on strings is a substring test; we implement it on the
character lists underlying `String`. -/

/-- `needle` occurs at the start of `hay`. -/
def charsStartWith (needle hay : List Char) : Bool :=
  match needle, hay with
  | [], _ => true
  | _ :: _, [] => false
  | a :: as, b :: bs => a = b && charsStartWith as bs

/-- `needle` occurs somewhere inside `hay` (Python `needle in hay`). -/
def charsContain (needle hay : List Char) : Bool :=
  match hay with
  | [] => needle.isEmpty
  | _ :: t => charsStartWith needle hay || charsContain needle t

/-- Python `needle in hay` for strings. -/
def strContains (hay needle : String) : Bool :=
  charsContain needle.data hay.data

/-- Python `str.lower()` (ASCII-faithful: every string it is applied to in
the embedded code paths is ASCII). -/
def pyLower (s : String) : String :=
  String.mk (s.data.map Char.toLower)

/-- Python slicing `s[:n]` — by code points. -/
def pyTake (s : String) (n : Nat) : String :=
  String.mk (s.data.take n)

/-- Python slicing `s[n:]` — by code points. -/
def pyDrop (s : String) (n : Nat) : String :=
  String.mk (s.data.drop n)

/-- Python `s.startswith(t)`. -/
def pyStartsWith (s t : String) : Bool :=
  charsStartWith t.data s.data

/-- The ASCII whitespace removed by Python `str.strip()` (no argument). -/
def pyWs (c : Char) : Bool :=
  c = ' ' || c = '\t' || c = '\n' || c = '\r' || c.toNat = 11 || c.toNat = 12

/-- Python `s.strip()` (ASCII-faithful). -/
def pyStrip (s : String) : String :=
  String.mk (((s.data.dropWhile pyWs).reverse.dropWhile pyWs).reverse)

/-- Split a character list on a separator; `[[]]` for the empty input, so
that `"".split(sep) == [""]` as in Python. -/
def splitCharsOn (sep : Char) : List Char → List (List Char)
  | [] => [[]]
  | c :: cs =>
    if c = sep then
      [] :: splitCharsOn sep cs
    else
      match splitCharsOn sep cs with
      | [] => [[c]]
      | l :: ls => (c :: l) :: ls

/-- Python `s.split(chr)` for a one-character separator. -/
def pySplitOn (s : String) (sep : Char) : List String :=
  (splitCharsOn sep s.data).map String.mk

/-! ## Data model (`backend/models/database.py` plus the columns added by
`fix_db_schema.py` and `update_pool_schema.py`, and the `weight` column used
throughout `crud.py` / `pool_manager.py`; nullable columns are `Option`) -/

inductive PoolType
  | tool
  | normal
  | advanced
deriving DecidableEq, Repr

inductive ApiFormat
  | openai
  | anthropic
deriving DecidableEq, Repr

structure Provider where
  id : Nat
  name : String
  base_url : String
  api_key : String
  api_format : ApiFormat
  enabled : Bool
deriving DecidableEq, Repr

/-- A `model_endpoints` row joined with its provider (`selectinload`); a
missing provider relation is `none`. -/
structure Endpoint where
  id : Nat
  provider : Option Provider
  model_id : String
  pool_type : Option PoolType
  enabled : Bool
  weight : Option Int
  min_interval_seconds : Option Nat
  last_request_at : Option Nat
deriving DecidableEq, Repr

/-- A `pools` row; `timeout_seconds` is the nullable column added by
`update_pool_schema.py`. -/
structure Pool where
  pool_type : PoolType
  virtual_model_name : String
  cooldown_seconds : Nat
  max_retries : Nat
  timeout_seconds : Option Nat
deriving DecidableEq, Repr

/-! ## `crud.get_endpoints_by_pool`

`SELECT ... WHERE pool_type = :pool AND enabled ORDER BY weight DESC`.
SQLite's `ORDER BY ... DESC` places NULLs last and is modelled as a stable
sort of the stored row order (row id order), so ties keep ascending id. -/

/-- `a ≥ b` on nullable integers with SQL NULL smallest. -/
def sqlWeightGe (a b : Option Int) : Bool :=
  match a, b with
  | none, none => true
  | none, some _ => false
  | some _, none => true
  | some x, some y => x ≥ y

/-- Stable insertion step of the descending-by-weight sort. -/
def insertByWeightDesc (e : Endpoint) : List Endpoint → List Endpoint
  | [] => [e]
  | x :: xs =>
    if sqlWeightGe e.weight x.weight then e :: x :: xs else x :: insertByWeightDesc e xs

/-- Stable sort by weight, descending, NULL weights last. -/
def sortByWeightDesc : List Endpoint → List Endpoint
  | [] => []
  | x :: xs => insertByWeightDesc x (sortByWeightDesc xs)

/-- `crud.get_endpoints_by_pool`: the enabled endpoints of the pool, joined
with their provider, ordered by descending weight. -/
def get_endpoints_by_pool (db : List Endpoint) (pool : PoolType) : List Endpoint :=
  sortByWeightDesc (db.filter (fun e => e.pool_type = some pool ∧ e.enabled))

/-! ## Virtual-model resolution (`backend/api/openai.py` and
`backend/api/anthropic.py`, `_resolve_pool_type` — the two copies are
textually identical) -/

/-- The three configured virtual model names (`config/settings.py`). -/
structure Settings where
  virtual_model_tool : String
  virtual_model_normal : String
  virtual_model_advanced : String
deriving DecidableEq, Repr

/-- Defaults of `config/settings.py`. -/
def defaultSettings : Settings :=
  { virtual_model_tool := "haiku", virtual_model_normal := "sonnet"
    virtual_model_advanced := "opus" }

/-- `_resolve_pool_type`: lower-case the requested model, then test `haiku`
(or equality with the tool virtual name) before `opus` (or equality with the
advanced virtual name); everything else lands in `normal`.  (`str.lower` is
ASCII-faithful here; all configured names are ASCII.) -/
def resolve_pool_type (s : Settings) (model : String) : PoolType :=
  let model_lower := pyLower model
  if strContains model_lower "haiku" || model_lower = s.virtual_model_tool then
    PoolType.tool
  else if strContains model_lower "opus" || model_lower = s.virtual_model_advanced then
    PoolType.advanced
  else
    PoolType.normal

/-- `Forwarder._model_to_pool_type` (`forwarder.py`): the forwarder's own
variant used only to tag request-log records; it additionally matches the
substrings `tool` and `advanced`. -/
def model_to_pool_type (model : String) : PoolType :=
  let model_lower := pyLower model
  if strContains model_lower "haiku" || strContains model_lower "tool" then
    PoolType.tool
  else if strContains model_lower "opus" || strContains model_lower "advanced" then
    PoolType.advanced
  else
    PoolType.normal

/-! ## Pool manager (`backend/core/pool_manager.py`)

`PoolManager` keeps the per-pool SWRR state
`pool_type -> { endpoint_id : current_weight }` and the cooldown manager.
`select_endpoint` runs entirely inside `self._lock`, so it is one atomic
state transformation. -/

/-- The dataclass `SelectedEndpoint` returned by selection. -/
structure SelectedEndpoint where
  endpoint_id : Nat
  provider_id : Nat
  provider_name : String
  base_url : String
  api_key : String
  model_id : String
  api_format : ApiFormat
  timeout : Nat
deriving DecidableEq, Repr

structure PoolManagerState where
  swrr : List (PoolType × List (Nat × Int))
  cooldown : CooldownManager
deriving DecidableEq, Repr

/-- `ep.weight or 1`: Python truthiness maps both `None` and `0` to the
default weight 1 (negative weights are truthy and kept as they are). -/
def weightOr1 (e : Endpoint) : Int :=
  match e.weight with
  | none => 1
  | some w => if w = 0 then 1 else w

/-- The availability filter of `select_endpoint` step 2, in loop order:
skip an endpoint whose provider relation is missing, then ask the cooldown
manager (threading its lazy-expiry deletions), then skip an endpoint still
inside its `min_interval_seconds` window. -/
def filterAvailable (mgr : CooldownManager) (now : Nat) :
    List Endpoint → List Endpoint × CooldownManager
  | [] => ([], mgr)
  | ep :: rest =>
    match ep.provider with
    | none => filterAvailable mgr now rest
    | some _ =>
      let (cooling, mgr') := mgr.is_cooling now ep.id
      if cooling then
        filterAvailable mgr' now rest
      else
        let inInterval : Bool :=
          match ep.min_interval_seconds, ep.last_request_at with
          | some d, some t => d > 0 && now < t + d
          | _, _ => false
        if inInterval then
          filterAvailable mgr' now rest
        else
          let (l, mgr'') := filterAvailable mgr' now rest
          (ep :: l, mgr'')

/-- SWRR state maintenance, step 3: drop keys that left the available set,
then initialise new endpoints at 0 (in available order). -/
def swrrPrepare (state : List (Nat × Int)) (available : List Endpoint) : List (Nat × Int) :=
  let current_ids := available.map (·.id)
  let pruned := state.filter (fun p => current_ids.contains p.1)
  available.foldl
    (fun s ep => if (dictGet s ep.id).isSome then s else s ++ [(ep.id, 0)])
    pruned

/-- The accumulating loop of step 4, carrying the state and the best
endpoint and maximum seen so far: for each available endpoint add its
effective weight to its current weight, then compare (strictly, so the
first maximum wins). -/
def swrrGo (s : List (Nat × Int)) (best : Option Endpoint) (mx : Option Int) :
    List Endpoint → List (Nat × Int) × Option Endpoint
  | [] => (s, best)
  | ep :: rest =>
    let cur := (dictGet s ep.id).getD 0 + weightOr1 ep
    let s' := dictSet s ep.id cur
    match mx with
    | none => swrrGo s' (some ep) (some cur) rest
    | some m =>
      if cur > m then swrrGo s' (some ep) (some cur) rest
      else swrrGo s' best (some m) rest

/-- The loop of step 4 started with `best_endpoint = None` and
`max_current_weight = -inf` (modelled by `none`). -/
def swrrLoop (state : List (Nat × Int)) (available : List Endpoint) :
    List (Nat × Int) × Option Endpoint :=
  swrrGo state none none available

/-- `crud.get_or_create_pool` followed by the timeout extraction of
`select_endpoint` step 6: a missing pool row or a NULL/0 `timeout_seconds`
yields the 60-second fallback. -/
def poolTimeout (pools : List Pool) (pool : PoolType) : Nat :=
  match pools.find? (fun p => p.pool_type = pool) with
  | none => 60
  | some cfg =>
    match cfg.timeout_seconds with
    | none => 60
    | some t => if t = 0 then 60 else t

/-- `PoolManager.select_endpoint`: fetch the pool's enabled endpoints, filter
availability, run smooth weighted round-robin over the filtered list and
return the winner together with the resolved provider data and the pool
timeout.  Returns the new manager state alongside. -/
def select_endpoint (st : PoolManagerState) (db : List Endpoint) (pools : List Pool)
    (pool : PoolType) (now : Nat) : Option SelectedEndpoint × PoolManagerState :=
  let all_endpoints := get_endpoints_by_pool db pool
  let (available, mgr') := filterAvailable st.cooldown now all_endpoints
  match available with
  | [] => (none, { st with cooldown := mgr' })
  | a :: rest =>
    let available := a :: rest
    let pool_state := (dictGet st.swrr pool).getD []
    let prepared := swrrPrepare pool_state available
    let total_weight : Int := (available.map weightOr1).sum
    let (state', best?) := swrrLoop prepared available
    -- the fallback `best = available[0]` of the source is unreachable for a
    -- nonempty available list but is kept faithfully
    let best := best?.getD a
    let state'' := dictSet state' best.id ((dictGet state' best.id).getD 0 - total_weight)
    let st' : PoolManagerState :=
      { swrr := dictSet st.swrr pool state'', cooldown := mgr' }
    match best.provider with
    | none => (none, st')
    | some provider =>
      (some { endpoint_id := best.id, provider_id := provider.id
              provider_name := provider.name, base_url := provider.base_url
              api_key := provider.api_key, model_id := best.model_id
              api_format := provider.api_format
              timeout := poolTimeout pools pool }, st')

/-! ## JSON values (the fragment handled by Python's `json` module)

`json.loads` / `json.dumps` as used by the forwarder.  Objects are
insertion-ordered association lists with unique keys (Python dicts).
Non-integer numerals are carried as their source lexeme (`Json.rawNum`);
Python would round-trip them through a float, whose formatting is out of
scope — no claim touches non-integer numbers. -/

inductive Json where
  | null
  | bool (b : Bool)
  | num (n : Int)
  | rawNum (lexeme : String)
  | str (s : String)
  | arr (elems : List Json)
  | obj (entries : List (String × Json))
deriving Repr

/-! ### `json.dumps` (default arguments: separators `", "` and `": "`,
`ensure_ascii=True`, lowercase hex escapes) -/

/-- Lowercase hexadecimal digit. -/
def hexDigit (n : Nat) : Char :=
  if n < 10 then Char.ofNat (48 + n) else Char.ofNat (87 + n)

/-- Four lowercase hex digits. -/
def hex4 (n : Nat) : String :=
  String.mk [hexDigit (n / 4096 % 16), hexDigit (n / 256 % 16),
             hexDigit (n / 16 % 16), hexDigit (n % 16)]

/-- `\uXXXX` escape of a scalar value; astral code points become a
surrogate pair, exactly as CPython's `ensure_ascii` encoder emits them. -/
def uEscape (c : Char) : String :=
  let n := c.toNat
  if n ≤ 0xFFFF then
    "\\u" ++ hex4 n
  else
    let m := n - 0x10000
    "\\u" ++ hex4 (0xD800 + m / 0x400) ++ "\\u" ++ hex4 (0xDC00 + m % 0x400)

/-- Escape one character of a JSON string literal
(`py_encode_basestring_ascii`). -/
def escChar (c : Char) : String :=
  if c = '"' then "\\\""
  else if c = '\\' then "\\\\"
  else if c = '\n' then "\\n"
  else if c = '\r' then "\\r"
  else if c = '\t' then "\\t"
  else if c.toNat = 8 then "\\b"
  else if c.toNat = 12 then "\\f"
  else if c.toNat < 0x20 || c.toNat > 0x7e then uEscape c
  else String.singleton c

/-- A JSON string literal. -/
def dumpStr (s : String) : String :=
  "\"" ++ String.join (s.data.map escChar) ++ "\""

mutual

/-- `json.dumps` with its default separators. -/
def Json.dumps : Json → String
  | .null => "null"
  | .bool true => "true"
  | .bool false => "false"
  | .num n => toString n
  | .rawNum l => l
  | .str s => dumpStr s
  | .arr es => "[" ++ dumpsArr es ++ "]"
  | .obj kvs => "\x7b" ++ dumpsObj kvs ++ "\x7d"

def dumpsArr : List Json → String
  | [] => ""
  | [x] => Json.dumps x
  | x :: y :: xs => Json.dumps x ++ ", " ++ dumpsArr (y :: xs)

def dumpsObj : List (String × Json) → String
  | [] => ""
  | [(k, v)] => dumpStr k ++ ": " ++ Json.dumps v
  | (k, v) :: e :: xs => dumpStr k ++ ": " ++ Json.dumps v ++ ", " ++ dumpsObj (e :: xs)

end

/-! ### `json.loads` (strict mode)

A fuel-indexed recursive-descent parser over the character list.  It
accepts the strict JSON grammar: the extensions Python additionally accepts
(`NaN`, `Infinity`, lone surrogate escapes) are rejected — none occurs in
any input considered here. -/

/-- JSON insignificant whitespace. -/
def jsonWs (c : Char) : Bool :=
  c = ' ' || c = '\t' || c = '\n' || c = '\r'

def skipWs : List Char → List Char
  | [] => []
  | c :: cs => if jsonWs c then skipWs cs else c :: cs

def hexVal (c : Char) : Option Nat :=
  if '0' ≤ c ∧ c ≤ '9' then some (c.toNat - 48)
  else if 'a' ≤ c ∧ c ≤ 'f' then some (c.toNat - 87)
  else if 'A' ≤ c ∧ c ≤ 'F' then some (c.toNat - 55)
  else none

/-- Four hex digits. -/
def parseHex4 : List Char → Option (Nat × List Char)
  | a :: b :: c :: d :: rest => do
    let va ← hexVal a
    let vb ← hexVal b
    let vc ← hexVal c
    let vd ← hexVal d
    pure (va * 4096 + vb * 256 + vc * 16 + vd, rest)
  | _ => none

/-- String body after the opening quote.  Escapes are decoded; a
`\uXXXX` high surrogate must be followed by a low surrogate (the pair is
combined); control characters are rejected (strict mode). -/
def parseStrBody : Nat → List Char → Option (List Char × List Char)
  | 0, _ => none
  | _ + 1, [] => none
  | fuel + 1, c :: cs =>
    if c = '"' then
      some ([], cs)
    else if c = '\\' then
      match cs with
      | [] => none
      | e :: cs' =>
        if e = '"' ∨ e = '\\' ∨ e = '/' then do
          let (s, rest) ← parseStrBody fuel cs'
          pure (e :: s, rest)
        else if e = 'b' then do
          let (s, rest) ← parseStrBody fuel cs'
          pure (Char.ofNat 8 :: s, rest)
        else if e = 'f' then do
          let (s, rest) ← parseStrBody fuel cs'
          pure (Char.ofNat 12 :: s, rest)
        else if e = 'n' then do
          let (s, rest) ← parseStrBody fuel cs'
          pure ('\n' :: s, rest)
        else if e = 'r' then do
          let (s, rest) ← parseStrBody fuel cs'
          pure ('\r' :: s, rest)
        else if e = 't' then do
          let (s, rest) ← parseStrBody fuel cs'
          pure ('\t' :: s, rest)
        else if e = 'u' then do
          let (n, rest) ← parseHex4 cs'
          if 0xD800 ≤ n ∧ n ≤ 0xDBFF then
            match rest with
            | '\\' :: 'u' :: rest' => do
              let (m, rest'') ← parseHex4 rest'
              if 0xDC00 ≤ m ∧ m ≤ 0xDFFF then do
                let (s, r) ← parseStrBody fuel rest''
                pure (Char.ofNat (0x10000 + (n - 0xD800) * 0x400 + (m - 0xDC00)) :: s, r)
              else none
            | _ => none
          else if 0xDC00 ≤ n ∧ n ≤ 0xDFFF then none
          else do
            let (s, r) ← parseStrBody fuel rest
            pure (Char.ofNat n :: s, r)
        else none
    else if c.toNat < 0x20 then none
    else do
      let (s, rest) ← parseStrBody fuel cs
      pure (c :: s, rest)

def digitsOf : List Char → List Char × List Char
  | [] => ([], [])
  | c :: cs =>
    if '0' ≤ c ∧ c ≤ '9' then
      let (d, r) := digitsOf cs
      (c :: d, r)
  else ([], c :: cs)

def digitsToNat (ds : List Char) : Nat :=
  ds.foldl (fun acc c => acc * 10 + (c.toNat - 48)) 0

/-- A JSON number: optional minus, integer part without leading zeros,
optional fraction and exponent.  Pure integer lexemes become `Json.num`
(Python `int`); anything with a fraction or exponent becomes `Json.rawNum`
holding the lexeme (Python `float`). -/
def parseNumber (cs : List Char) : Option (Json × List Char) :=
  let (neg, cs₁) := match cs with
    | '-' :: r => (true, r)
    | _ => (false, cs)
  match cs₁ with
  | [] => none
  | c :: _ =>
    if ¬('0' ≤ c ∧ c ≤ '9') then none
    else
      let (intDigits, cs₂) := digitsOf cs₁
      if intDigits.length > 1 ∧ intDigits.headD '0' = '0' then none
      else
        let (fracDigits, cs₃) :=
          match cs₂ with
          | '.' :: r =>
            let (d, r') := digitsOf r
            if d.isEmpty then ([], cs₂) else ('.' :: d, r')
          | _ => ([], cs₂)
        if (match cs₂ with | '.' :: _ => fracDigits.isEmpty | _ => false) then none
        else
          let (expDigits, cs₄) :=
            match cs₃ with
            | e :: r =>
              if e = 'e' ∨ e = 'E' then
                match r with
                | s :: r' =>
                  if s = '+' ∨ s = '-' then
                    let (d, r'') := digitsOf r'
                    if d.isEmpty then ([], cs₃) else (e :: s :: d, r'')
                  else
                    let (d, r'') := digitsOf r
                    if d.isEmpty then ([], cs₃) else (e :: d, r'')
                | [] => ([], cs₃)
              else ([], cs₃)
            | [] => ([], cs₃)
          if (match cs₃ with
              | e :: _ => ((e == 'e') || (e == 'E')) && expDigits.isEmpty
              | _ => false) then none
          else if fracDigits.isEmpty ∧ expDigits.isEmpty then
            let v : Int := Int.ofNat (digitsToNat intDigits)
            some (.num (if neg then -v else v), cs₄)
          else
            let lex := (if neg then ['-'] else []) ++ intDigits ++ fracDigits ++ expDigits
            some (.rawNum (String.mk lex), cs₄)

mutual

/-- One JSON value, leading whitespace already skipped. -/
def parseVal : Nat → List Char → Option (Json × List Char)
  | 0, _ => none
  | _ + 1, [] => none
  | fuel + 1, c :: cs =>
    if c = '"' then do
      let (s, rest) ← parseStrBody (fuel + 1) cs
      pure (.str (String.mk s), rest)
    else if c = '\x7b' then
      let cs' := skipWs cs
      match cs' with
      | '\x7d' :: rest => some (.obj [], rest)
      | _ => parseObjElems fuel cs' []
    else if c = '[' then
      let cs' := skipWs cs
      match cs' with
      | ']' :: rest => some (.arr [], rest)
      | _ => parseArrElems fuel cs' []
    else if c = 't' then
      match cs with
      | 'r' :: 'u' :: 'e' :: rest => some (.bool true, rest)
      | _ => none
    else if c = 'f' then
      match cs with
      | 'a' :: 'l' :: 's' :: 'e' :: rest => some (.bool false, rest)
      | _ => none
    else if c = 'n' then
      match cs with
      | 'u' :: 'l' :: 'l' :: rest => some (.null, rest)
      | _ => none
    else
      parseNumber (c :: cs)

/-- Array elements, positioned at the start of a value. -/
def parseArrElems (fuel : Nat) (cs : List Char) (acc : List Json) :
    Option (Json × List Char) :=
  match fuel with
  | 0 => none
  | fuel + 1 => do
    let (v, rest) ← parseVal fuel cs
    let rest' := skipWs rest
    match rest' with
    | ',' :: r => parseArrElems fuel (skipWs r) (acc ++ [v])
    | ']' :: r => pure (.arr (acc ++ [v]), r)
    | _ => none

/-- Object members, positioned at the opening quote of a key.  Duplicate
keys overwrite the value kept at the first occurrence's position, as a
Python dict does. -/
def parseObjElems (fuel : Nat) (cs : List Char) (acc : List (String × Json)) :
    Option (Json × List Char) :=
  match fuel with
  | 0 => none
  | fuel + 1 =>
    match cs with
    | '"' :: cs' => do
      let (k, rest) ← parseStrBody fuel cs'
      let rest' := skipWs rest
      match rest' with
      | ':' :: r => do
        let (v, rest'') ← parseVal fuel (skipWs r)
        let acc' := dictSet acc (String.mk k) v
        let rest''' := skipWs rest''
        match rest''' with
        | ',' :: r' =>
          match skipWs r' with
          | r'' => parseObjElems fuel r'' acc'
        | '\x7d' :: r' => pure (.obj acc', r')
        | _ => none
      | _ => none
    | _ => none

end

/-- `json.loads`: parse a complete document, allowing surrounding
whitespace and rejecting trailing garbage. -/
def Json.parse (s : String) : Option Json :=
  match parseVal (s.length + 1) (skipWs s.data) with
  | some (v, rest) => if (skipWs rest).isEmpty then some v else none
  | none => none

/-! ## SSE chunk rewriting (`Forwarder._process_stream_chunk`)

The source decodes one upstream chunk, splits it on newlines, and yields
each line back with a trailing newline; `data: ` lines with a JSON payload
get their model field rewritten.  Any exception inside the per-line `try`
(including the `TypeError`/`AttributeError` arms of Python's `in` and item
assignment on non-dicts) makes the line pass through unchanged. -/

/-- Python `"model" in <list>` membership: only a `str` element compares
equal to the needle. -/
def listHasStr (es : List Json) (needle : String) : Bool :=
  es.any fun j =>
    match j with
    | .str s => s = needle
    | _ => false

/-- The body of the per-line `try` block, after `json.loads` succeeded:
rewrite the top-level `model` field, then the Anthropic
`message_start` nested `message.model` field.  `none` models a raised
(and later caught) exception:
* non-dict payloads always end in one (`in` on a number raises
  `TypeError`; item assignment on `str`/`list` raises `TypeError`;
  `.get` on `str`/`list` raises `AttributeError`), so they pass through;
* a `message_start` whose `message` value is not a dict raises on the
  membership test or on the nested assignment unless the membership test
  returns `False`, in which case processing continues. -/
def rewriteData (data : Json) (original_model : String) : Option (Json × Bool) :=
  match data with
  | .obj kvs =>
    let hit := (dictGet kvs "model").isSome
    let kvs1 := if hit then dictSet kvs "model" (.str original_model) else kvs
    let isMsgStart : Bool :=
      match dictGet kvs1 "type" with
      | some (.str t) => t = "message_start"
      | _ => false
    if isMsgStart && (dictGet kvs1 "message").isSome then
      match dictGet kvs1 "message" with
      | some (.obj mkvs) =>
        if (dictGet mkvs "model").isSome then
          some (.obj (dictSet kvs1 "message"
                  (.obj (dictSet mkvs "model" (.str original_model)))), true)
        else some (.obj kvs1, hit)
      | some (.str s) =>
        if strContains s "model" then none else some (.obj kvs1, hit)
      | some (.arr es) =>
        if listHasStr es "model" then none else some (.obj kvs1, hit)
      | _ => none
    else some (.obj kvs1, hit)
  | _ => none

/-- Processing of one line of a chunk.  The yielded byte string always ends
in the newline the split removed. -/
def processLine (line : String) (original_model : String) : String :=
  if pyStartsWith line "data: " then
    if pyStrip line = "data: [DONE]" then line ++ "\n"
    else
      match Json.parse (pyDrop line 6) with
      | none => line ++ "\n"
      | some data =>
        match rewriteData data original_model with
        | none => line ++ "\n"
        | some (data', changed) =>
          if changed then "data: " ++ data'.dumps ++ "\n" else line ++ "\n"
  else line ++ "\n"

/-- The enumeration loop: a final empty line (from a chunk that ended in a
newline) yields nothing. -/
def processLines (original_model : String) : List String → List String
  | [] => []
  | [last] => if last = "" then [] else [processLine last original_model]
  | l :: next :: ls => processLine l original_model :: processLines original_model (next :: ls)

/-- `Forwarder._process_stream_chunk`: the list of byte strings yielded for
one upstream chunk. -/
def process_stream_chunk (chunk : String) (original_model : String) : List String :=
  processLines original_model (pySplitOn chunk '\n')

/-! ## Request log records (`Forwarder._log_request` / `crud.create_log`) -/

structure LogRecord where
  pool_type : PoolType
  requested_model : String
  actual_model : String
  provider_name : String
  success : Bool
  status_code : Option Nat
  error_message : Option String
  latency_ms : Nat
  input_tokens : Option Int
  output_tokens : Option Int
deriving DecidableEq, Repr

/-! ## Forwarder (`backend/core/forwarder.py`)

The gateway-wide state a logical request reads and writes: the pool
manager (SWRR + cooldowns), the per-endpoint statistics rows and the
request log.  Wall-clock latencies are not modelled; every
`int((time.time()-start_time)*1000)` becomes `0`. -/

structure GatewayState where
  pm : PoolManagerState
  stats : List (Nat × EndpointStats)
  logs : List LogRecord
deriving Repr

/-- `PoolManager.mark_success`: bump the endpoint row (a missing row is a
no-op, as in `crud.increment_endpoint_stats`) and clear any cooldown. -/
def mark_success (st : GatewayState) (endpoint_id : Nat) (latency_ms : ℚ) (now : Nat) :
    GatewayState :=
  let stats' :=
    match dictGet st.stats endpoint_id with
    | none => st.stats
    | some e => dictSet st.stats endpoint_id (increment_endpoint_stats e true latency_ms now)
  { st with stats := stats'
            pm := { st.pm with cooldown := st.pm.cooldown.clear_cooldown endpoint_id } }

/-- `PoolManager.mark_failure`: bump the error counter with latency 0.  The
error message is only logged; no cooldown is set (the source comment says
so explicitly). -/
def mark_failure (st : GatewayState) (endpoint_id : Nat) (now : Nat) : GatewayState :=
  match dictGet st.stats endpoint_id with
  | none => st
  | some e =>
    { st with stats := dictSet st.stats endpoint_id (increment_endpoint_stats e false 0 now) }

/-- What the upstream at one endpoint does when called: an HTTP response
(status, error/JSON body text, and the SSE chunk sequence for streaming),
or one of httpx's retriable transport exceptions. -/
inductive UpstreamBehavior where
  | respond (status : Nat) (body : String) (chunks : List String)
  | transportError (errName : String) (message : String)

/-- Deterministic upstream environment, keyed by endpoint id. -/
abbrev Upstream := Nat → UpstreamBehavior

/-- `RetryConfig.RETRIABLE_STATUS_CODES`. -/
def RETRIABLE_STATUS_CODES : List Nat := [429, 500, 502, 503, 504]

/-- `RetryConfig.ENDPOINT_RETRIES`. -/
def ENDPOINT_RETRIES : Nat := 3

/-- `RetryConfig.MAX_ENDPOINT_ATTEMPTS`. -/
def MAX_ENDPOINT_ATTEMPTS : Nat := 10

/-- httpx `Response.raise_for_status` raises unless the status is a 2xx. -/
def isSuccessStatus (status : Nat) : Bool :=
  200 ≤ status ∧ status < 300

/-- Token extraction of `_handle_normal_request`: `usage.input_tokens` /
`usage.output_tokens` (Anthropic) else `usage.prompt_tokens` /
`usage.completion_tokens` (OpenAI).  A non-dict `usage` value, or a raised
`TypeError`/`AttributeError`, leaves both `None` (the inner
`try/except: pass`). -/
def extractTokens (kvs : List (String × Json)) : Option Int × Option Int :=
  match dictGet kvs "usage" with
  | some (.obj u) =>
    let asInt : Option Json → Option Int := fun j =>
      match j with
      | some (.num n) => some n
      | _ => none
    if (dictGet u "input_tokens").isSome then
      (asInt (dictGet u "input_tokens"), asInt (dictGet u "output_tokens"))
    else if (dictGet u "prompt_tokens").isSome then
      (asInt (dictGet u "prompt_tokens"), asInt (dictGet u "completion_tokens"))
    else (none, none)
  | _ => (none, none)

/-- Classification of one non-streaming attempt as seen by the
`except` arms of `forward_request`. -/
inductive AttemptResult where
  | success (response : Json) (st : GatewayState)
  | retriableErr (error_msg : String) (status_code : Option Nat)
  | terminalErr (error_msg : String) (status_code : Option Nat)
  | unknownErr (error_msg : String)

/-- `Forwarder._handle_normal_request` together with the exception
classification of the caller.  On a 2xx the response JSON gets its
top-level `model` field rewritten to the requested model, tokens are
extracted, `mark_success` runs and one success log record is appended (the
log's pool tag uses `_model_to_pool_type`).  A non-2xx raises
`HTTPStatusError`, split into retryable and terminal by
`RETRIABLE_STATUS_CODES`.  An unparseable JSON body — or a non-dict one,
whose `in`/item-assignment/`.get` raises — lands in the
`except Exception` arm (the exact Python exception texts of those arms are
not reproduced; no claim reads them). -/
def attemptNormal (st : GatewayState) (up : Upstream) (sel : SelectedEndpoint)
    (original_model : String) (now : Nat) : AttemptResult :=
  match up sel.endpoint_id with
  | .transportError errName msg =>
    .retriableErr (errName ++ ": " ++ msg) none
  | .respond status body _ =>
    if isSuccessStatus status then
      match Json.parse body with
      | some (.obj kvs) =>
        let kvs' :=
          if (dictGet kvs "model").isSome then dictSet kvs "model" (.str original_model)
          else kvs
        let (input_tokens, output_tokens) := extractTokens kvs'
        let st₁ := mark_success st sel.endpoint_id 0 now
        let record : LogRecord :=
          { pool_type := model_to_pool_type original_model
            requested_model := original_model, actual_model := sel.model_id
            provider_name := sel.provider_name, success := true
            status_code := some 200, error_message := none, latency_ms := 0
            input_tokens := input_tokens, output_tokens := output_tokens }
        .success (.obj kvs') { st₁ with logs := st₁.logs ++ [record] }
      | some _ => .unknownErr "Unexpected Error: model rewrite on non-dict response"
      | none => .unknownErr "Unexpected Error: response body is not valid JSON"
    else
      let error_msg := "HTTP " ++ toString status ++ ": " ++ pyTake body 200
      if RETRIABLE_STATUS_CODES.contains status then
        .retriableErr ("HTTPStatusError: HTTP " ++ toString status) (some status)
      else
        .terminalErr error_msg (some status)

/-- What `_handle_stream_request` returns: the async generator object,
not yet started.  It closes over the selected endpoint and the requested
model; nothing in it has run when `forward_request` returns it. -/
structure StreamHandle where
  endpoint : SelectedEndpoint
  original_model : String
deriving DecidableEq, Repr

/-- The result triple of `Forwarder.forward_request`: exactly one of
response object, stream iterator, or error string. -/
inductive ForwardResult where
  | ok (response : Json)
  | stream (handle : StreamHandle)
  | error (message : String)

/-- A failure record as `forward_request` logs it (the failure arms tag the
record with the request's pool, unlike the success path). -/
def failRecord (pool_type : PoolType) (original_model : String) (sel : SelectedEndpoint)
    (status_code : Option Nat) (error_msg : String) : LogRecord :=
  { pool_type := pool_type, requested_model := original_model
    actual_model := sel.model_id, provider_name := sel.provider_name
    success := false, status_code := status_code
    error_message := some error_msg, latency_ms := 0
    input_tokens := none, output_tokens := none }

/-- Exit of the per-endpoint retry loop: either `forward_request` returns
(a success or a terminal error), or it advances to the next endpoint
carrying `last_error`. -/
inductive InnerOutcome where
  | finished (result : ForwardResult)
  | nextEndpoint (last_error : String)

/-- The inner `for retry in range(ENDPOINT_RETRIES)` loop of
`forward_request` for a non-streaming attempt.  A retryable error on the
last retry — or an unknown exception on any retry — marks the failure, logs
it once and advances to the next endpoint; a terminal status marks, logs
and returns the error immediately; backoff sleeps are timing and not
modelled. -/
def runRetries (up : Upstream) (sel : SelectedEndpoint) (original_model : String)
    (pool_type : PoolType) (now : Nat) :
    Nat → GatewayState → InnerOutcome × GatewayState
  | 0, st => (.nextEndpoint "", st)
  | retriesLeft + 1, st =>
    match attemptNormal st up sel original_model now with
    | .success resp st' => (.finished (.ok resp), st')
    | .terminalErr msg status =>
      let st₁ := mark_failure st sel.endpoint_id now
      let st₂ := { st₁ with logs := st₁.logs ++ [failRecord pool_type original_model sel status msg] }
      (.finished (.error msg), st₂)
    | .retriableErr msg status =>
      if retriesLeft = 0 then
        let st₁ := mark_failure st sel.endpoint_id now
        let st₂ := { st₁ with logs := st₁.logs ++ [failRecord pool_type original_model sel status msg] }
        (.nextEndpoint msg, st₂)
      else
        runRetries up sel original_model pool_type now retriesLeft st
    | .unknownErr msg =>
      let st₁ := mark_failure st sel.endpoint_id now
      let st₂ := { st₁ with logs := st₁.logs ++ [failRecord pool_type original_model sel none msg] }
      (.nextEndpoint msg, st₂)

/-- The terminal message of `forward_request` after exhausting all
endpoints (or breaking out because none was available). -/
def allRetriesFailedMsg (last_error : String) : String :=
  "所有重试失败 (尝试了10个端点): " ++ last_error

/-- The outer `for attempt in range(MAX_ENDPOINT_ATTEMPTS)` loop.  For a
streaming request the generator handle is returned as soon as the first
selection succeeds — before any upstream I/O.  The returned `List Nat` is
the dispatch trace: the endpoint id of every outer attempt, in order. -/
def forwardLoop (up : Upstream) (db : List Endpoint) (pools : List Pool)
    (pool_type : PoolType) (original_model : String) (stream : Bool) (now : Nat) :
    Nat → GatewayState → String → List Nat → ForwardResult × GatewayState × List Nat
  | 0, st, last_error, trace =>
    (.error (allRetriesFailedMsg last_error), st, trace)
  | attemptsLeft + 1, st, _, trace =>
    match select_endpoint st.pm db pools pool_type now with
    | (none, pm') =>
      (.error (allRetriesFailedMsg "没有可用的端点"), { st with pm := pm' }, trace)
    | (some sel, pm') =>
      let st₁ : GatewayState := { st with pm := pm' }
      let trace₁ := trace ++ [sel.endpoint_id]
      if stream then
        (.stream { endpoint := sel, original_model := original_model }, st₁, trace₁)
      else
        match runRetries up sel original_model pool_type now ENDPOINT_RETRIES st₁ with
        | (.finished r, st₂) => (r, st₂, trace₁)
        | (.nextEndpoint err, st₂) =>
          forwardLoop up db pools pool_type original_model stream now attemptsLeft st₂ err trace₁

/-- `Forwarder.forward_request`.  `body` is the decoded request JSON
object; `request_body.get("model", "unknown")` is its `model` field
(string-valued in every request considered here). -/
def forward_request (st : GatewayState) (up : Upstream) (db : List Endpoint)
    (pools : List Pool) (pool_type : PoolType) (body : List (String × Json))
    (stream : Bool) (now : Nat) : ForwardResult × GatewayState × List Nat :=
  let original_model :=
    match dictGet body "model" with
    | some (.str s) => s
    | _ => "unknown"
  forwardLoop up db pools pool_type original_model stream now MAX_ENDPOINT_ATTEMPTS st "" []

/-! ## The streaming generator (`stream_with_heartbeat`)

Consuming the stream handle runs the generator body: send the request,
check the status, pipe the chunks through `_process_stream_chunk`.  All
error paths are caught inside the generator itself (`except Exception` at
the end of `stream_with_heartbeat`): the exception never reaches
`forward_request`, which has already returned.  Heartbeat comment frames
and the first-chunk timeout are timing behaviour and are not modelled; the
yielded list is the sequence of data frames. -/

/-- Python `repr` of a bytes value as it lands in an f-string
(ASCII-faithful). -/
def pyByteEsc (c : Char) : String :=
  if c = '\\' then "\\\\"
  else if c = '\'' then "\\'"
  else if c = '\n' then "\\n"
  else if c = '\r' then "\\r"
  else if c = '\t' then "\\t"
  else if c.toNat < 0x20 || c.toNat > 0x7e then
    "\\x" ++ String.mk [hexDigit (c.toNat / 16 % 16), hexDigit (c.toNat % 16)]
  else String.singleton c

def pyBytesRepr (s : String) : String :=
  "b'" ++ String.join (s.data.map pyByteEsc) ++ "'"

/-- The in-band error sniff of the streaming loop: a chunk whose decoded
text contains both `"error":` and `"message":` raises
`HTTPStatusError(f"Stream contained error: {chunk_str[:100]}")`. -/
def streamErrorMarker (chunk : String) : Bool :=
  strContains chunk "\"error\":" && strContains chunk "\"message\":"

/-- The body-forwarding loop: process chunks in order, stopping (without
yielding anything of the offending chunk) at the first error marker. -/
def consumeChunks (original_model : String) :
    List String → List String × Option String
  | [] => ([], none)
  | c :: rest =>
    if streamErrorMarker c then
      ([], some ("Stream contained error: " ++ pyTake c 100))
    else
      let (ys, e) := consumeChunks original_model rest
      (process_stream_chunk c original_model ++ ys, e)

/-- Run the `stream_with_heartbeat` generator to completion: the data
frames yielded downstream and the final gateway state.  A non-200 status
drains the error body and raises `HTTPStatusError` before any frame is
yielded; every raised exception is caught by the generator's own
`except Exception`, which marks the failure and logs it (status-less), and
does not re-raise. -/
def run_stream (st : GatewayState) (up : Upstream) (h : StreamHandle) (now : Nat) :
    List String × GatewayState :=
  let failState (msg : String) : GatewayState :=
    let st₁ := mark_failure st h.endpoint.endpoint_id now
    { st₁ with logs := st₁.logs ++
        [{ pool_type := model_to_pool_type h.original_model
           requested_model := h.original_model, actual_model := h.endpoint.model_id
           provider_name := h.endpoint.provider_name, success := false
           status_code := none, error_message := some msg, latency_ms := 0
           input_tokens := none, output_tokens := none }] }
  match up h.endpoint.endpoint_id with
  | .transportError _ msg => ([], failState msg)
  | .respond status body chunks =>
    if status ≠ 200 then
      ([], failState ("HTTP " ++ toString status ++ ": " ++ pyBytesRepr (pyTake body 200)))
    else
      match consumeChunks h.original_model chunks with
      | (ys, some msg) => (ys, failState msg)
      | (ys, none) =>
        let st₁ := mark_success st h.endpoint.endpoint_id 0 now
        (ys, { st₁ with logs := st₁.logs ++
            [{ pool_type := model_to_pool_type h.original_model
               requested_model := h.original_model, actual_model := h.endpoint.model_id
               provider_name := h.endpoint.provider_name, success := true
               status_code := some 200, error_message := none, latency_ms := 0
               input_tokens := none, output_tokens := none }] })

/-! ## HTTP layer (`backend/api/openai.py` / `anthropic.py`, POST handlers)

Both handlers resolve the pool from the requested model, force
`stream = True`, call the forwarder, and turn a forwarder error into
`HTTPException(status_code=502, detail=error)`. -/

inductive HttpReply where
  | streamingResponse (handle : StreamHandle)
  | jsonResponse (response : Json)
  | httpError (status : Nat) (detail : String)

/-- `create_chat_completion` / `create_message` after JSON decoding: 400 on
a missing/empty model, otherwise forward with `stream = True` and map an
error result to a 502 whose detail is the forwarder's error string. -/
def handle_request (s : Settings) (st : GatewayState) (up : Upstream)
    (db : List Endpoint) (pools : List Pool) (body : List (String × Json))
    (now : Nat) : HttpReply × GatewayState × List Nat :=
  match dictGet body "model" with
  | some (.str model) =>
    if model = "" then (.httpError 400 "缺少 model 参数", st, [])
    else
      let pool_type := resolve_pool_type s model
      let body' := dictSet body "stream" (.bool true)
      match forward_request st up db pools pool_type body' true now with
      | (.error msg, st', tr) => (.httpError 502 msg, st', tr)
      | (.stream h, st', tr) => (.streamingResponse h, st', tr)
      | (.ok j, st', tr) => (.jsonResponse j, st', tr)
  | _ => (.httpError 400 "缺少 model 参数", st, [])

/-! ## Helpers for the SWRR claims -/

/-- The value an endpoint is compared at inside one SWRR selection round:
its stored current weight plus its effective weight. -/
def gval (s : List (Nat × Int)) (e : Endpoint) : Int :=
  (dictGet s e.id).getD 0 + weightOr1 e

/-- Repeated selection: the endpoint ids dispatched by `n` consecutive
calls of `select_endpoint`, threading the manager state (all dispatches
succeed — no failures are reported between selections). -/
def selectRun (db : List Endpoint) (pools : List Pool) (pool : PoolType) (now : Nat) :
    PoolManagerState → Nat → List Nat
  | _, 0 => []
  | st, n + 1 =>
    match select_endpoint st db pools pool now with
    | (some sel, st') => sel.endpoint_id :: selectRun db pools pool now st' n
    | (none, _) => []

/-! ### The claim's algorithm, modelled from the spec's words

The definitions of this subsection are NOT translated from the source:
they follow the claim's own wording — `w_e = max(weight, 1)`; iteration in
a stable order sorted by ascending endpoint id; ties to the first
encountered — in order to compare the claim's tie-break with the code's
(which iterates in the weight-descending order produced by
`get_endpoints_by_pool`). -/

/-- Modelled from the spec: `w_e = max(e.weight, 1)`. -/
def weightMax1 (e : Endpoint) : Int :=
  max (e.weight.getD 1) 1

/-- Modelled from the spec: stable insertion by ascending endpoint id. -/
def insertByIdAsc (e : Endpoint) : List Endpoint → List Endpoint
  | [] => [e]
  | x :: xs => if e.id ≤ x.id then e :: x :: xs else x :: insertByIdAsc e xs

/-- Modelled from the spec: stable sort by ascending endpoint id. -/
def sortByIdAsc : List Endpoint → List Endpoint
  | [] => []
  | x :: xs => insertByIdAsc x (sortByIdAsc xs)

/-- Modelled from the spec: the first endpoint (in list order) whose stored
value is maximal — "ties: first encountered in iteration order". -/
def pickFirstMax (S : List (Nat × Int)) : List Endpoint → Option Endpoint
  | [] => none
  | e :: rest =>
    match pickFirstMax S rest with
    | none => some e
    | some b =>
      if (dictGet S b.id).getD 0 > (dictGet S e.id).getD 0 then some b else some e

/-- Modelled from the spec: one SWRR selection with id-sorted iteration:
`S[e] += w_e` for every endpoint, pick the first maximum, subtract the
total weight from the winner. -/
def specSelectStep (S : List (Nat × Int)) (avail : List Endpoint) :
    Option Endpoint × List (Nat × Int) :=
  let ordered := sortByIdAsc avail
  let total := (ordered.map weightMax1).sum
  let S₁ := ordered.foldl
    (fun s e => dictSet s e.id ((dictGet s e.id).getD 0 + weightMax1 e)) S
  match pickFirstMax S₁ ordered with
  | none => (none, S₁)
  | some w => (some w, dictSet S₁ w.id ((dictGet S₁ w.id).getD 0 - total))

/-- Modelled from the spec: `n` consecutive dispatches of the claim's
algorithm. -/
def specRunIdOrder (avail : List Endpoint) : List (Nat × Int) → Nat → List Nat
  | _, 0 => []
  | S, n + 1 =>
    match specSelectStep S avail with
    | (some w, S') => w.id :: specRunIdOrder avail S' n
    | (none, _) => []

/-! ## Concrete fixtures used by witnesses and counterexamples -/

/-- An enabled provider. -/
def provOn : Provider :=
  { id := 1, name := "prov-on", base_url := "http://up", api_key := "key"
    api_format := ApiFormat.openai, enabled := true }

/-- A disabled provider. -/
def provOff : Provider :=
  { id := 2, name := "prov-off", base_url := "http://off", api_key := "key2"
    api_format := ApiFormat.anthropic, enabled := false }

/-- A plain enabled endpoint of the tool pool with weight 1. -/
def mkEp (i : Nat) : Endpoint :=
  { id := i, provider := some provOn, model_id := "m" ++ toString i
    pool_type := some PoolType.tool, enabled := true, weight := some 1
    min_interval_seconds := none, last_request_at := none }

/-- A fresh pool manager state with default cooldown 60 and no entries. -/
def freshPM : PoolManagerState :=
  { swrr := [], cooldown := { default_cooldown_seconds := 60, cooldowns := [] } }

/-- A weighted enabled endpoint of the tool pool. -/
def epw (i : Nat) (w : Int) : Endpoint :=
  { mkEp i with weight := some w }

/-! # Lemmas and verification of the claims -/

/-! ## Dictionary lemmas -/

theorem dictGet_dictSet_self {κ α : Type} [DecidableEq κ] (m : List (κ × α)) (k : κ) (v : α) :
    dictGet (dictSet m k v) k = some v := by
  induction m with
  | nil => simp [dictGet, dictSet]
  | cons p rest ih =>
    obtain ⟨k', v'⟩ := p
    by_cases h : k' = k <;> simp [dictGet, dictSet, h, ih]

theorem dictGet_dictSet_ne {κ α : Type} [DecidableEq κ] (m : List (κ × α)) (k j : κ) (v : α)
    (h : k ≠ j) : dictGet (dictSet m k v) j = dictGet m j := by
  induction m with
  | nil => simp [dictGet, dictSet, h]
  | cons p rest ih =>
    obtain ⟨k', v'⟩ := p
    by_cases h1 : k' = k
    · subst h1
      simp [dictGet, dictSet, h]
    · by_cases h2 : k' = j <;> simp [dictGet, dictSet, h1, h2, ih, Ne.symm h]

theorem dictGet_dictDel_ne {κ α : Type} [DecidableEq κ] (m : List (κ × α)) (k j : κ)
    (h : k ≠ j) : dictGet (dictDel m k) j = dictGet m j := by
  induction m with
  | nil => simp [dictDel]
  | cons p rest ih =>
    obtain ⟨k', v'⟩ := p
    by_cases h1 : k' = k
    · subst h1
      simp [dictGet, dictDel, h]
    · by_cases h2 : k' = j <;> simp [dictGet, dictDel, h1, h2, ih, Ne.symm h]

/-! ## C5 — cooldown round trip -/

/-- C5 (counterexample): the claim asserts that parking with duration 0
leaves the endpoint unparked and sets the expiry to `now + 0`.  On the code,
`seconds or self.default_cooldown_seconds` treats `0` as falsy: parking
endpoint 5 at time 0 with duration 0 under the default of 60 seconds sets
the expiry to 60 and `is_cooling` immediately afterwards answers `true`. -/
theorem C5_park_zero_counterexample :
    ((CooldownManager.set_cooldown ⟨60, []⟩ 0 5 (some 0)).is_cooling 0 5).1 = true ∧
    dictGet (CooldownManager.set_cooldown ⟨60, []⟩ 0 5 (some 0)).cooldowns 5 = some 60 := by
  constructor <;> rfl

/-- C5 (amended): for a positive duration `d`, `set_cooldown` overwrites any
prior entry with expiry `now + d`, and immediately afterwards `is_cooling`
at any instant `now'` answers `true` exactly when the clock has not reached
`now + d`; a duration of `0` (like `None`) falls back to the default
cooldown, so the endpoint is parked for `default_cooldown_seconds` instead
of being left unparked. -/
theorem C5_cooldown_round_trip (m : CooldownManager) (now id d : Nat) (hd : 1 ≤ d) :
    dictGet (m.set_cooldown now id (some d)).cooldowns id = some (now + d) ∧
    (∀ now' : Nat,
      ((m.set_cooldown now id (some d)).is_cooling now' id).1 = decide (now' < now + d)) ∧
    dictGet (m.set_cooldown now id (some 0)).cooldowns id
      = some (now + m.default_cooldown_seconds) := by
  have hd0 : ¬ d = 0 := by omega
  have hset : dictGet (m.set_cooldown now id (some d)).cooldowns id = some (now + d) := by
    have : (m.set_cooldown now id (some d)).cooldowns = dictSet m.cooldowns id (now + d) := by
      simp [CooldownManager.set_cooldown, hd0]
    rw [this, dictGet_dictSet_self]
  refine ⟨hset, ?_, ?_⟩
  · intro now'
    rw [CooldownManager.is_cooling, hset]
    by_cases h : now' ≥ now + d
    · simp [h, Nat.not_lt.mpr h]
    · simp [h, Nat.lt_of_not_le h]
  · have : (m.set_cooldown now id (some 0)).cooldowns
        = dictSet m.cooldowns id (now + m.default_cooldown_seconds) := by
      simp [CooldownManager.set_cooldown]
    rw [this, dictGet_dictSet_self]

/-- C5 (witness): the amended round trip evaluated at a concrete input:
default 60, park endpoint 7 at time 10 for 5 seconds. -/
theorem C5_cooldown_round_trip_witness :
    dictGet ((⟨60, [(7, 3)]⟩ : CooldownManager).set_cooldown 10 7 (some 5)).cooldowns 7
      = some 15 ∧
    (((⟨60, [(7, 3)]⟩ : CooldownManager).set_cooldown 10 7 (some 5)).is_cooling 14 7).1
      = decide ((14 : Nat) < 15) := by
  obtain ⟨h1, h2, _⟩ := C5_cooldown_round_trip ⟨60, [(7, 3)]⟩ 10 7 5 (by decide)
  exact ⟨h1, h2 14⟩

/-! ## C7 — per-endpoint statistics invariant -/

theorem applyOutcomes_append (init : EndpointStats) (os : List Outcome) (o : Outcome) :
    applyOutcomes init (os ++ [o])
      = increment_endpoint_stats (applyOutcomes init os) o.success o.latency_ms o.at_time := by
  simp [applyOutcomes, List.foldl_append]

theorem stats_invariant (os : List Outcome) :
    (applyOutcomes EndpointStats.zero os).total_requests = os.length ∧
    (applyOutcomes EndpointStats.zero os).success_requests = (os.filter (·.success)).length ∧
    (applyOutcomes EndpointStats.zero os).error_requests
      = (os.filter (fun o => ! o.success)).length ∧
    (applyOutcomes EndpointStats.zero os).avg_latency_ms
        * (applyOutcomes EndpointStats.zero os).success_requests
      = (successLatencies os).sum ∧
    ((applyOutcomes EndpointStats.zero os).success_requests = 0 →
      (applyOutcomes EndpointStats.zero os).avg_latency_ms = 0) ∧
    (applyOutcomes EndpointStats.zero os).last_request_at = lastSuccessAt os := by
  induction os using List.reverseRecOn with
  | nil => simp [applyOutcomes, EndpointStats.zero, successLatencies, lastSuccessAt]
  | append_singleton os o ih =>
    obtain ⟨ht, hs, he, havg, hz, hlast⟩ := ih
    rw [applyOutcomes_append]
    rcases hos : o.success with _ | _
    · refine ⟨?_, ?_, ?_, ?_, ?_, ?_⟩
      · simp [increment_endpoint_stats, hos, ht]
      · simp [increment_endpoint_stats, hos, hs, List.filter_append]
      · simp [increment_endpoint_stats, hos, he, List.filter_append]
      · simpa [increment_endpoint_stats, hos, successLatencies, List.filter_append]
          using havg
      · intro h
        simp [increment_endpoint_stats, hos] at h
        exact hz h
      · simp [increment_endpoint_stats, hos, hlast, lastSuccessAt, List.filter_append]
    · refine ⟨?_, ?_, ?_, ?_, ?_, ?_⟩
      · simp [increment_endpoint_stats, hos, ht]
      · simp [increment_endpoint_stats, hos, hs, List.filter_append]
      · simp [increment_endpoint_stats, hos, he, List.filter_append]
      · have hsum : (successLatencies (os ++ [o])).sum
            = (applyOutcomes EndpointStats.zero os).avg_latency_ms
                * (applyOutcomes EndpointStats.zero os).success_requests + o.latency_ms := by
          simp [successLatencies, List.filter_append, hos, havg]
        rw [hsum]
        simp only [increment_endpoint_stats, hos, if_true]
        have hb : 0 < (applyOutcomes EndpointStats.zero os).success_requests + 1 :=
          Nat.succ_pos _
        have hq : ((applyOutcomes EndpointStats.zero os).success_requests + 1 : ℚ) ≠ 0 := by
          positivity
        simp only [if_pos hb]
        push_cast
        field_simp
      · intro h
        simp [increment_endpoint_stats, hos] at h
      · simp [increment_endpoint_stats, hos, lastSuccessAt, List.filter_append]

/-- C7: starting from zeroed counters, after any sequence of terminal
outcomes recorded through `increment_endpoint_stats`: `success + error =
total`; `avg_latency_ms` is the arithmetic mean of the latencies of the
successful outcomes only (0 when there has been none), and one failing
outcome leaves the average unchanged; `last_request_at` is the instant of
the last successful outcome, so only successes update it. -/
theorem C7_stats_invariant (os : List Outcome) :
    (applyOutcomes EndpointStats.zero os).success_requests
        + (applyOutcomes EndpointStats.zero os).error_requests
      = (applyOutcomes EndpointStats.zero os).total_requests ∧
    (applyOutcomes EndpointStats.zero os).avg_latency_ms
      = (if (successLatencies os).length = 0 then 0
         else (successLatencies os).sum / (successLatencies os).length) ∧
    (∀ (e : EndpointStats) (lat : ℚ) (now : Nat),
      (increment_endpoint_stats e false lat now).avg_latency_ms = e.avg_latency_ms ∧
      (increment_endpoint_stats e false lat now).last_request_at = e.last_request_at) ∧
    (applyOutcomes EndpointStats.zero os).last_request_at = lastSuccessAt os := by
  obtain ⟨ht, hs, he, havg, hz, hlast⟩ := stats_invariant os
  have hlen : (successLatencies os).length = (os.filter (·.success)).length := by
    simp [successLatencies]
  refine ⟨?_, ?_, ?_, hlast⟩
  · rw [ht, hs, he]
    exact (List.length_eq_length_filter_add (l := os) (·.success)).symm
  · by_cases hne : (successLatencies os).length = 0
    · rw [if_pos hne]
      apply hz
      omega
    · rw [if_neg hne]
      have hq : ((successLatencies os).length : ℚ) ≠ 0 := by
        exact_mod_cast hne
      rw [eq_div_iff hq, hlen, ← hs]
      exact havg
  · intro e lat now
    constructor <;> simp [increment_endpoint_stats]

/-! ## C8 — virtual-model → pool resolution -/

theorem charsStartWith_refl (l : List Char) : charsStartWith l l = true := by
  induction l with
  | nil => rfl
  | cons a as ih => simp [charsStartWith, ih]

theorem strContains_self (s : String) : strContains s s = true := by
  unfold strContains
  cases h : s.data with
  | nil => simp [charsContain]
  | cons c cs =>
    unfold charsContain
    rw [charsStartWith_refl]
    simp

/-- C8: resolution is a function of the lower-cased model string alone
(case-insensitivity); under the default virtual names, a string containing
`haiku` resolves to the tool pool (before the `opus` test), a string
containing `opus` but not `haiku` resolves to the advanced pool, and every
other string — `gpt-4o` and `sonnet` included — resolves to the normal
pool; the literal scenarios of the spec evaluate accordingly, and a string
containing both `haiku` and `opus` goes to the tool pool because the
`haiku` test runs first. -/
theorem C8_virtual_model_resolution :
    (∀ (s : Settings) (m₁ m₂ : String), pyLower m₁ = pyLower m₂ →
      resolve_pool_type s m₁ = resolve_pool_type s m₂) ∧
    (∀ m : String, strContains (pyLower m) "haiku" = true →
      resolve_pool_type defaultSettings m = PoolType.tool) ∧
    (∀ m : String, strContains (pyLower m) "haiku" = false →
      strContains (pyLower m) "opus" = true →
      resolve_pool_type defaultSettings m = PoolType.advanced) ∧
    (∀ m : String, strContains (pyLower m) "haiku" = false →
      strContains (pyLower m) "opus" = false →
      resolve_pool_type defaultSettings m = PoolType.normal) ∧
    resolve_pool_type defaultSettings "claude-haiku-4.5" = PoolType.tool ∧
    resolve_pool_type defaultSettings "claude-opus-4" = PoolType.advanced ∧
    resolve_pool_type defaultSettings "sonnet" = PoolType.normal ∧
    resolve_pool_type defaultSettings "gpt-4o" = PoolType.normal ∧
    resolve_pool_type defaultSettings "HAIKU-plus-OPUS" = PoolType.tool := by
  refine ⟨?_, ?_, ?_, ?_, by decide, by decide, by decide, by decide, by decide⟩
  · intro s m₁ m₂ h
    simp only [resolve_pool_type, h]
  · intro m h
    simp [resolve_pool_type, defaultSettings, h]
  · intro m h1 h2
    have hne : pyLower m ≠ "haiku" := by
      intro he
      rw [he] at h1
      rw [strContains_self] at h1
      simp at h1
    simp [resolve_pool_type, defaultSettings, h1, h2, hne]
  · intro m h1 h2
    have hne1 : pyLower m ≠ "haiku" := by
      intro he
      rw [he] at h1
      rw [strContains_self] at h1
      simp at h1
    have hne2 : pyLower m ≠ "opus" := by
      intro he
      rw [he] at h2
      rw [strContains_self] at h2
      simp at h2
    simp [resolve_pool_type, defaultSettings, h1, h2, hne1, hne2]

/-- C8 (witness): the universally quantified parts of the resolution
theorem applied at concrete strings. -/
theorem C8_virtual_model_resolution_witness :
    resolve_pool_type defaultSettings "My-Haiku-Mini" = PoolType.tool ∧
    resolve_pool_type defaultSettings "OPUS-4-turbo" = PoolType.advanced ∧
    resolve_pool_type defaultSettings "claude-3-sonnet" = PoolType.normal := by
  refine ⟨?_, ?_, ?_⟩
  · exact C8_virtual_model_resolution.2.1 "My-Haiku-Mini" (by decide)
  · exact C8_virtual_model_resolution.2.2.1 "OPUS-4-turbo" (by decide) (by decide)
  · exact C8_virtual_model_resolution.2.2.2.1 "claude-3-sonnet" (by decide) (by decide)

/-! ## C9 — stream chunk rewriting -/

theorem dictSet_same {κ α : Type} [DecidableEq κ] (m : List (κ × α)) (k : κ) (v : α)
    (h : dictGet m k = some v) : dictSet m k v = m := by
  induction m with
  | nil => simp [dictGet] at h
  | cons p rest ih =>
    obtain ⟨k', v'⟩ := p
    by_cases h1 : k' = k
    · subst h1
      simp [dictGet] at h
      simp [dictSet, h]
    · simp [dictGet, h1] at h
      simp [dictSet, h1, ih h]

theorem charsStartWith_decomp (n : List Char) :
    ∀ h : List Char, charsStartWith n h = true → h = n ++ h.drop n.length := by
  induction n with
  | nil => intro h _; simp
  | cons a as ih =>
    intro h hs
    cases h with
    | nil => simp [charsStartWith] at hs
    | cons b bs =>
      simp only [charsStartWith, Bool.and_eq_true, decide_eq_true_eq] at hs
      obtain ⟨rfl, hs2⟩ := hs
      simpa using ih bs hs2

/-- A line starting with `data: ` is the tag followed by its payload. -/
theorem dataLine_decomp (line : String) (h : pyStartsWith line "data: " = true) :
    line = "data: " ++ pyDrop line 6 := by
  have := charsStartWith_decomp "data: ".data line.data h
  apply String.ext
  simpa [pyDrop, String.append] using this

/-- C9 (counterexample): rewriting is not a no-op on a chunk whose model
already equals the virtual name: the payload `{"model":"sonnet"}` (no space
after the colon) is re-serialized by `json.dumps` with its default
separators, so the output differs from the input even though the model
field already equals the requested name `sonnet`. -/
theorem C9_chunk_noop_counterexample :
    (∃ kvs, Json.parse "\x7b\"model\":\"sonnet\"\x7d" = some (Json.obj kvs) ∧
      dictGet kvs "model" = some (Json.str "sonnet")) ∧
    String.join (process_stream_chunk "data: \x7b\"model\":\"sonnet\"\x7d\n" "sonnet")
      = "data: \x7b\"model\": \"sonnet\"\x7d\n" ∧
    "data: \x7b\"model\": \"sonnet\"\x7d\n" ≠ "data: \x7b\"model\":\"sonnet\"\x7d\n" := by
  refine ⟨⟨[("model", Json.str "sonnet")], rfl, rfl⟩, by decide, by decide⟩

/-- Under "model already equals the requested name" hypotheses, the
rewriter either returns the object unchanged (with the `changed` flag set
by the top-level hit) or raises internally and passes the line through. -/
theorem rewriteData_noop (kvs : List (String × Json)) (orig : String)
    (hm : dictGet kvs "model" = some (.str orig))
    (hnested : ∀ mkvs j, dictGet kvs "message" = some (.obj mkvs) →
      dictGet mkvs "model" = some j → j = .str orig) :
    rewriteData (.obj kvs) orig = some (.obj kvs, true) ∨
    rewriteData (.obj kvs) orig = none := by
  have hset : dictSet kvs "model" (.str orig) = kvs := dictSet_same _ _ _ hm
  simp only [rewriteData, hm, Option.isSome_some, if_true, hset]
  by_cases hc : ((match dictGet kvs "type" with
      | some (.str t) => decide (t = "message_start")
      | _ => false) && (dictGet kvs "message").isSome) = true
  · rw [if_pos hc]
    cases hmsg : dictGet kvs "message" with
    | none =>
      rw [hmsg] at hc
      simp at hc
    | some v =>
      cases v with
      | obj mkvs =>
        cases hmm : dictGet mkvs "model" with
        | some j =>
          have hj : j = .str orig := hnested mkvs j hmsg hmm
          subst hj
          left
          simp [hmsg, hmm, dictSet_same _ _ _ hmm, dictSet_same _ _ _ hmsg]
        | none =>
          left
          simp [hmsg, hmm]
      | str s =>
        by_cases hsub : strContains s "model" = true
        · right
          simp [hmsg, hsub]
        · left
          simp [hmsg, hsub]
      | arr es =>
        by_cases hmem : listHasStr es "model" = true
        · right
          simp [hmsg, hmem]
        · left
          simp [hmsg, hmem]
      | bool b =>
        right
        simp [hmsg]
      | num n =>
        right
        simp [hmsg]
      | rawNum l =>
        right
        simp [hmsg]
      | null =>
        right
        simp [hmsg]
  · rw [if_neg hc]
    left
    rfl

/-- C9 (amended): every `data: ` line whose payload parses as a JSON object
has its model field rewritten to the requested virtual model name — at top
level when the payload is not a `message_start` event, and additionally
under `message.model` for an Anthropic `message_start` whose `message` is
an object (a malformed `message_start` envelope raises inside the per-line
`try` and passes the line through unchanged); the `data: [DONE]` sentinel,
lines not starting with `data: ` (blank, `event:` and comment lines
included) and lines whose payload fails JSON parsing pass through
unchanged; and rewriting a line whose payload is in canonical `json.dumps`
form and whose model fields already equal the virtual name is a no-op —
idempotence holds only up to re-serialization, as the counterexample
shows. -/
theorem C9_chunk_rewriting :
    (∀ (line orig : String) (kvs : List (String × Json)),
      pyStartsWith line "data: " = true →
      pyStrip line ≠ "data: [DONE]" →
      Json.parse (pyDrop line 6) = some (.obj kvs) →
      (dictGet kvs "model").isSome = true →
      (match dictGet kvs "type" with
       | some (.str t) => decide (t = "message_start")
       | _ => false) = false →
      ∃ kvs', processLine line orig = "data: " ++ (Json.obj kvs').dumps ++ "\n" ∧
        dictGet kvs' "model" = some (.str orig) ∧
        ∀ k, k ≠ "model" → dictGet kvs' k = dictGet kvs k) ∧
    (∀ (line orig : String) (kvs mkvs : List (String × Json)),
      pyStartsWith line "data: " = true →
      pyStrip line ≠ "data: [DONE]" →
      Json.parse (pyDrop line 6) = some (.obj kvs) →
      dictGet kvs "type" = some (.str "message_start") →
      dictGet kvs "message" = some (.obj mkvs) →
      (dictGet mkvs "model").isSome = true →
      ∃ kvs' mkvs', processLine line orig = "data: " ++ (Json.obj kvs').dumps ++ "\n" ∧
        dictGet kvs' "message" = some (.obj mkvs') ∧
        dictGet mkvs' "model" = some (.str orig)) ∧
    (∀ (line orig : String), pyStartsWith line "data: " = false →
      processLine line orig = line ++ "\n") ∧
    (∀ (line orig : String), pyStartsWith line "data: " = true →
      pyStrip line = "data: [DONE]" →
      processLine line orig = line ++ "\n") ∧
    (∀ (line orig : String), pyStartsWith line "data: " = true →
      pyStrip line ≠ "data: [DONE]" →
      Json.parse (pyDrop line 6) = none →
      processLine line orig = line ++ "\n") ∧
    (∀ (line orig : String) (kvs : List (String × Json)),
      pyStartsWith line "data: " = true →
      pyStrip line ≠ "data: [DONE]" →
      Json.parse (pyDrop line 6) = some (.obj kvs) →
      (Json.obj kvs).dumps = pyDrop line 6 →
      dictGet kvs "model" = some (.str orig) →
      (∀ mkvs j, dictGet kvs "message" = some (.obj mkvs) →
        dictGet mkvs "model" = some j → j = .str orig) →
      processLine line orig = line ++ "\n") := by
  refine ⟨?_, ?_, ?_, ?_, ?_, ?_⟩
  · intro line orig kvs h1 h2 h3 hm hms
    refine ⟨dictSet kvs "model" (.str orig), ?_, dictGet_dictSet_self _ _ _, ?_⟩
    · simp only [processLine, h1, if_true, h2, if_false, h3]
      have htype : dictGet (dictSet kvs "model" (.str orig)) "type" = dictGet kvs "type" :=
        dictGet_dictSet_ne _ _ _ _ (by decide)
      simp only [rewriteData, hm, if_true, htype, hms, Bool.false_and, Bool.false_eq_true,
        if_false, if_true]
    · intro k hk
      exact dictGet_dictSet_ne _ _ _ _ (Ne.symm hk)
  · intro line orig kvs mkvs h1 h2 h3 htype hmsg hmm
    set kvs1 := if (dictGet kvs "model").isSome then dictSet kvs "model" (.str orig) else kvs
      with hkvs1
    have htype1 : dictGet kvs1 "type" = some (.str "message_start") := by
      rw [hkvs1]
      split
      · rw [dictGet_dictSet_ne _ _ _ _ (by decide)]
        exact htype
      · exact htype
    have hmsg1 : dictGet kvs1 "message" = some (.obj mkvs) := by
      rw [hkvs1]
      split
      · rw [dictGet_dictSet_ne _ _ _ _ (by decide)]
        exact hmsg
      · exact hmsg
    refine ⟨dictSet kvs1 "message" (.obj (dictSet mkvs "model" (.str orig))),
            dictSet mkvs "model" (.str orig), ?_,
            dictGet_dictSet_self _ _ _, dictGet_dictSet_self _ _ _⟩
    simp only [processLine, h1, if_true, h2, if_false, h3]
    simp [rewriteData, ← hkvs1, htype1, hmsg1, hmm]
  · intro line orig h1
    simp [processLine, h1]
  · intro line orig h1 h2
    simp [processLine, h1, h2]
  · intro line orig h1 h2 h3
    simp [processLine, h1, h2, h3]
  · intro line orig kvs h1 h2 h3 hcanon hm hnested
    have hline : line = "data: " ++ pyDrop line 6 := dataLine_decomp line h1
    rcases rewriteData_noop kvs orig hm hnested with hr | hr
    · simp only [processLine, h1, if_true, h2, if_false, h3, hr, if_true, hcanon]
      rw [← hline]
    · simp [processLine, h1, h2, h3, hr]

/-- C9 (witness): the rewriting theorem applied at concrete lines: an
OpenAI delta with a foreign model name, an Anthropic `message_start`, an
`event:` line, the `[DONE]` sentinel, a non-JSON payload, and a canonical
line whose model already equals the virtual name. -/
theorem C9_chunk_rewriting_witness :
    (∃ kvs', processLine "data: \x7b\"model\": \"g4\", \"id\": 7\x7d" "sonnet"
        = "data: " ++ (Json.obj kvs').dumps ++ "\n" ∧
      dictGet kvs' "model" = some (Json.str "sonnet") ∧
      ∀ k, k ≠ "model" →
        dictGet kvs' k = dictGet [("model", Json.str "g4"), ("id", Json.num 7)] k) ∧
    (∃ kvs' mkvs',
      processLine "data: \x7b\"type\": \"message_start\", \"message\": \x7b\"model\": \"g4\"\x7d\x7d" "sonnet"
        = "data: " ++ (Json.obj kvs').dumps ++ "\n" ∧
      dictGet kvs' "message" = some (Json.obj mkvs') ∧
      dictGet mkvs' "model" = some (Json.str "sonnet")) ∧
    processLine "event: ping" "sonnet" = "event: ping\n" ∧
    processLine "data: [DONE]" "sonnet" = "data: [DONE]\n" ∧
    processLine "data: not json" "sonnet" = "data: not json\n" ∧
    processLine "data: \x7b\"model\": \"sonnet\"\x7d" "sonnet"
      = "data: \x7b\"model\": \"sonnet\"\x7d\n" := by
  refine ⟨?_, ?_, ?_, ?_, ?_, ?_⟩
  · exact C9_chunk_rewriting.1 "data: \x7b\"model\": \"g4\", \"id\": 7\x7d" "sonnet"
      [("model", Json.str "g4"), ("id", Json.num 7)] (by decide) (by decide) rfl rfl rfl
  · exact C9_chunk_rewriting.2.1
      "data: \x7b\"type\": \"message_start\", \"message\": \x7b\"model\": \"g4\"\x7d\x7d" "sonnet"
      [("type", Json.str "message_start"), ("message", Json.obj [("model", Json.str "g4")])]
      [("model", Json.str "g4")] (by decide) (by decide) rfl rfl rfl rfl
  · exact C9_chunk_rewriting.2.2.1 "event: ping" "sonnet" (by decide)
  · exact C9_chunk_rewriting.2.2.2.1 "data: [DONE]" "sonnet" (by decide) (by decide)
  · exact C9_chunk_rewriting.2.2.2.2.1 "data: not json" "sonnet" (by decide) (by decide) rfl
  · exact C9_chunk_rewriting.2.2.2.2.2 "data: \x7b\"model\": \"sonnet\"\x7d" "sonnet"
      [("model", Json.str "sonnet")] (by decide) (by decide) rfl rfl rfl
      (fun mkvs j h => by simp [dictGet] at h)

/-! ## Selection lemmas (C4, C6) -/

theorem mem_insertByWeightDesc (e a : Endpoint) (l : List Endpoint) :
    a ∈ insertByWeightDesc e l ↔ a = e ∨ a ∈ l := by
  induction l with
  | nil => simp [insertByWeightDesc]
  | cons x xs ih =>
    by_cases h : sqlWeightGe e.weight x.weight
    · simp [insertByWeightDesc, h]
    · simp [insertByWeightDesc, h, ih]
      tauto

theorem mem_sortByWeightDesc (a : Endpoint) (l : List Endpoint) :
    a ∈ sortByWeightDesc l ↔ a ∈ l := by
  induction l with
  | nil => simp [sortByWeightDesc]
  | cons x xs ih => simp [sortByWeightDesc, mem_insertByWeightDesc, ih]

theorem mem_get_endpoints_by_pool (db : List Endpoint) (pool : PoolType) (e : Endpoint) :
    e ∈ get_endpoints_by_pool db pool ↔
      e ∈ db ∧ e.pool_type = some pool ∧ e.enabled = true := by
  simp [get_endpoints_by_pool, mem_sortByWeightDesc, List.mem_filter, and_assoc]

theorem is_cooling_true_of_parked (m : CooldownManager) (now id : Nat)
    (h : parkedP m now id) : (m.is_cooling now id).1 = true := by
  obtain ⟨u, hu, hlt⟩ := h
  simp [CooldownManager.is_cooling, hu, Nat.not_le.mpr hlt]

theorem parked_after_is_cooling (m : CooldownManager) (now i j : Nat)
    (h : parkedP m now j) : parkedP (m.is_cooling now i).2 now j := by
  obtain ⟨u, hu, hlt⟩ := h
  unfold CooldownManager.is_cooling
  cases hg : dictGet m.cooldowns i with
  | none => exact ⟨u, hu, hlt⟩
  | some v =>
    by_cases hge : now ≥ v
    · simp only [hge, if_true]
      by_cases hij : i = j
      · subst hij
        rw [hu] at hg
        cases hg
        omega
      · exact ⟨u, by rw [dictGet_dictDel_ne _ _ _ hij]; exact hu, hlt⟩
    · simp only [hge, if_false]
      exact ⟨u, hu, hlt⟩

theorem filterAvailable_not_parked (now id : Nat) :
    ∀ (l : List Endpoint) (m : CooldownManager), parkedP m now id →
      ∀ e ∈ (filterAvailable m now l).1, e.id ≠ id := by
  intro l
  induction l with
  | nil =>
    intro m _ e he
    simp [filterAvailable] at he
  | cons ep rest ih =>
    intro m hp e he
    unfold filterAvailable at he
    cases hprov : ep.provider with
    | none =>
      rw [hprov] at he
      exact ih m hp e he
    | some p =>
      rw [hprov] at he
      rcases hic : m.is_cooling now ep.id with ⟨c, m'⟩
      rw [hic] at he
      have hpres : parkedP m' now id := by
        have := parked_after_is_cooling m now ep.id id hp
        rwa [hic] at this
      cases c with
      | true =>
        simp only [if_true] at he
        exact ih m' hpres e he
      | false =>
        simp only [Bool.false_eq_true, if_false] at he
        by_cases hint : (match ep.min_interval_seconds, ep.last_request_at with
          | some d, some t => decide (d > 0) && decide (now < t + d)
          | _, _ => false) = true
        · rw [if_pos hint] at he
          exact ih m' hpres e he
        · rw [if_neg hint] at he
          rcases hfa : filterAvailable m' now rest with ⟨l', m''⟩
          rw [hfa] at he
          simp only [List.mem_cons] at he
          rcases he with rfl | he
          · intro hh
            apply hp.elim
            intro u hu
            have hc : (m.is_cooling now e.id).1 = true := by
              rw [hh]
              exact is_cooling_true_of_parked m now id hp
            rw [hic] at hc
            simp at hc
          · have : e ∈ (filterAvailable m' now rest).1 := by rw [hfa]; exact he
            exact ih m' hpres e this

theorem filterAvailable_mem (now : Nat) :
    ∀ (l : List Endpoint) (m : CooldownManager), ∀ e ∈ (filterAvailable m now l).1,
      e ∈ l ∧ e.provider.isSome = true ∧
        (∀ d t, e.min_interval_seconds = some d → 0 < d →
          e.last_request_at = some t → ¬ now < t + d) := by
  intro l
  induction l with
  | nil =>
    intro m e he
    simp [filterAvailable] at he
  | cons ep rest ih =>
    intro m e he
    unfold filterAvailable at he
    cases hprov : ep.provider with
    | none =>
      rw [hprov] at he
      obtain ⟨h1, h2, h3⟩ := ih m e he
      exact ⟨List.mem_cons_of_mem _ h1, h2, h3⟩
    | some p =>
      rw [hprov] at he
      rcases hic : m.is_cooling now ep.id with ⟨c, m'⟩
      rw [hic] at he
      cases c with
      | true =>
        simp only [if_true] at he
        obtain ⟨h1, h2, h3⟩ := ih m' e he
        exact ⟨List.mem_cons_of_mem _ h1, h2, h3⟩
      | false =>
        simp only [Bool.false_eq_true, if_false] at he
        by_cases hint : (match ep.min_interval_seconds, ep.last_request_at with
          | some d, some t => decide (d > 0) && decide (now < t + d)
          | _, _ => false) = true
        · rw [if_pos hint] at he
          obtain ⟨h1, h2, h3⟩ := ih m' e he
          exact ⟨List.mem_cons_of_mem _ h1, h2, h3⟩
        · rw [if_neg hint] at he
          rcases hfa : filterAvailable m' now rest with ⟨l', m''⟩
          rw [hfa] at he
          simp only [List.mem_cons] at he
          rcases he with rfl | he
          · refine ⟨List.mem_cons_self _ _, by simp [hprov], ?_⟩
            intro d t hd hdpos ht hlt
            apply hint
            rw [hd, ht]
            simp [hdpos, hlt]
          · have : e ∈ (filterAvailable m' now rest).1 := by rw [hfa]; exact he
            obtain ⟨h1, h2, h3⟩ := ih m' e this
            exact ⟨List.mem_cons_of_mem _ h1, h2, h3⟩

theorem swrrGo_best_mem :
    ∀ (l : List Endpoint) (s : List (Nat × Int)) (b : Option Endpoint) (m : Option Int),
      (swrrGo s b m l).2 = b ∨ ∃ e ∈ l, (swrrGo s b m l).2 = some e := by
  intro l
  induction l with
  | nil =>
    intro s b m
    left
    rfl
  | cons ep rest ih =>
    intro s b m
    unfold swrrGo
    cases m with
    | none =>
      rcases ih _ (some ep) (some ((dictGet s ep.id).getD 0 + weightOr1 ep)) with h | ⟨e, he, h⟩
      · right
        exact ⟨ep, List.mem_cons_self _ _, h⟩
      · right
        exact ⟨e, List.mem_cons_of_mem _ he, h⟩
    | some mv =>
      by_cases hgt : (dictGet s ep.id).getD 0 + weightOr1 ep > mv
      · simp only [hgt, if_true]
        rcases ih _ (some ep) _ with h | ⟨e, he, h⟩
        · right
          exact ⟨ep, List.mem_cons_self _ _, h⟩
        · right
          exact ⟨e, List.mem_cons_of_mem _ he, h⟩
      · simp only [hgt, if_false]
        rcases ih _ b (some mv) with h | ⟨e, he, h⟩
        · left
          exact h
        · right
          exact ⟨e, List.mem_cons_of_mem _ he, h⟩

theorem select_endpoint_sound (st : PoolManagerState) (db : List Endpoint)
    (pools : List Pool) (pool : PoolType) (now : Nat) (sel : SelectedEndpoint)
    (h : (select_endpoint st db pools pool now).1 = some sel) :
    ∃ e, e ∈ (filterAvailable st.cooldown now (get_endpoints_by_pool db pool)).1 ∧
      sel.endpoint_id = e.id ∧ e.provider.isSome = true := by
  simp only [select_endpoint] at h
  rcases hfa : filterAvailable st.cooldown now (get_endpoints_by_pool db pool) with ⟨avail, mgr'⟩
  rw [hfa] at h
  cases avail with
  | nil => simp at h
  | cons a rest =>
    simp only at h
    rcases hloop : swrrLoop (swrrPrepare ((dictGet st.swrr pool).getD []) (a :: rest)) (a :: rest)
      with ⟨state', best?⟩
    rw [hloop] at h
    simp only at h
    have hbmem : best?.getD a ∈ a :: rest := by
      cases hb : best? with
      | none => simp [List.mem_cons_self]
      | some b =>
        have := swrrGo_best_mem (a :: rest) (swrrPrepare ((dictGet st.swrr pool).getD []) (a :: rest)) none none
        rcases this with h2 | ⟨e, he, h2⟩
        · rw [show swrrGo (swrrPrepare ((dictGet st.swrr pool).getD []) (a :: rest)) none none (a :: rest)
              = (state', best?) from hloop] at h2
          simp [hb] at h2
        · rw [show swrrGo (swrrPrepare ((dictGet st.swrr pool).getD []) (a :: rest)) none none (a :: rest)
              = (state', best?) from hloop] at h2
          simp only [hb] at h2
          cases h2
          simpa [hb] using he
    cases hprov : (best?.getD a).provider with
    | none =>
      rw [hprov] at h
      simp at h
    | some p =>
      rw [hprov] at h
      simp only [Option.some.injEq] at h
      refine ⟨best?.getD a, hbmem, ?_, by simp [hprov]⟩
      rw [← h]

/-! ## C4 — selection never returns an unavailable endpoint -/

/-- C4: whenever `select_endpoint` returns an endpoint, (a) no endpoint id
that is parked at `now` (cooldown expiry still in the future) can be the
returned one, and (b) under distinct endpoint ids, no endpoint of the
database whose `min_interval_seconds = d > 0` and `last_request_at = t`
satisfy `now < t + d` can be the returned one. -/
theorem C4_selection_availability (st : PoolManagerState) (db : List Endpoint)
    (pools : List Pool) (pool : PoolType) (now : Nat) (sel : SelectedEndpoint)
    (hsel : (select_endpoint st db pools pool now).1 = some sel) :
    (∀ id, parkedP st.cooldown now id → sel.endpoint_id ≠ id) ∧
    ((db.map Endpoint.id).Nodup →
      ∀ e ∈ db, ∀ d t, e.min_interval_seconds = some d → 0 < d →
        e.last_request_at = some t → now < t + d → sel.endpoint_id ≠ e.id) := by
  obtain ⟨e', he', hid, hprov⟩ := select_endpoint_sound st db pools pool now sel hsel
  constructor
  · intro id hp hne
    have hne' := filterAvailable_not_parked now id _ st.cooldown hp e' he'
    rw [hne] at hid
    exact hne' hid.symm
  · intro hnodup e he d t hd hdpos ht hlt heq
    obtain ⟨hmem, _, hint⟩ := filterAvailable_mem now _ st.cooldown e' he'
    have he'db : e' ∈ db := ((mem_get_endpoints_by_pool db pool e').mp hmem).1
    have heid : e.id = e'.id := by rw [← heq, hid]
    have hee : e = e' := List.inj_on_of_nodup_map hnodup he he'db heid
    subst hee
    exact hint d t hd hdpos ht hlt

/-- C4 (witness): endpoint 1 is parked until 100, endpoint 2 sits inside a
10-second min-interval window after a dispatch at 0, endpoint 3 is free;
at instant 5, selection returns endpoint 3 and the theorem rules out 1 and 2. -/
theorem C4_selection_availability_witness :
    ∃ sel, (select_endpoint { swrr := [], cooldown := ⟨60, [(1, 100)]⟩ }
        [mkEp 1, { mkEp 2 with min_interval_seconds := some 10, last_request_at := some 0 },
         mkEp 3] [] PoolType.tool 5).1 = some sel ∧
      sel.endpoint_id ≠ 1 ∧ sel.endpoint_id ≠ 2 := by
  have h := C4_selection_availability { swrr := [], cooldown := ⟨60, [(1, 100)]⟩ }
    [mkEp 1, { mkEp 2 with min_interval_seconds := some 10, last_request_at := some 0 },
     mkEp 3] [] PoolType.tool 5
    { endpoint_id := 3, provider_id := 1, provider_name := "prov-on"
      base_url := "http://up", api_key := "key", model_id := "m3"
      api_format := ApiFormat.openai, timeout := 60 } (by decide)
  exact ⟨_, by decide, h.1 1 ⟨100, rfl, by decide⟩,
    h.2 (by decide) { mkEp 2 with min_interval_seconds := some 10, last_request_at := some 0 }
      (by decide) 10 0 rfl (by decide) rfl (by decide)⟩

/-! ## C6 — the candidate set of selection -/

/-- C6 (counterexample): the claim asserts that an endpoint whose provider
is disabled is skipped and can never be selected.  The code only skips a
missing provider relation: a pool whose single endpoint belongs to the
disabled provider `prov-off` still has that endpoint selected. -/
theorem C6_disabled_provider_counterexample :
    provOff.enabled = false ∧
    (select_endpoint freshPM
        [{ mkEp 1 with provider := some provOff, pool_type := some PoolType.normal }]
        [] PoolType.normal 0).1
      = some { endpoint_id := 1, provider_id := 2, provider_name := "prov-off"
               base_url := "http://off", api_key := "key2", model_id := "m1"
               api_format := ApiFormat.anthropic, timeout := 60 } := by
  exact ⟨rfl, by decide⟩

/-- C6 (amended): the candidate set fetched for a pool is exactly the set
of enabled endpoints assigned to that pool, and selection only ever
returns an enabled endpoint of the pool whose provider relation is
present — but a disabled provider is not filtered out, as the
counterexample shows; only a missing provider relation is skipped. -/
theorem C6_candidate_set (db : List Endpoint) (pool : PoolType) :
    (∀ e, e ∈ get_endpoints_by_pool db pool ↔
      e ∈ db ∧ e.pool_type = some pool ∧ e.enabled = true) ∧
    (∀ (st : PoolManagerState) (pools : List Pool) (now : Nat) (sel : SelectedEndpoint),
      (select_endpoint st db pools pool now).1 = some sel →
      ∃ e, e ∈ db ∧ e.pool_type = some pool ∧ e.enabled = true ∧
        e.provider.isSome = true ∧ sel.endpoint_id = e.id) := by
  constructor
  · exact mem_get_endpoints_by_pool db pool
  · intro st pools now sel h
    obtain ⟨e, he, hid, hprov⟩ := select_endpoint_sound st db pools pool now sel h
    obtain ⟨hmem, _, _⟩ := filterAvailable_mem now _ st.cooldown e he
    obtain ⟨hdb, hpool, hen⟩ := (mem_get_endpoints_by_pool db pool e).mp hmem
    exact ⟨e, hdb, hpool, hen, hprov, hid⟩

/-- C6 (witness): the candidate-set characterization applied to a two-entry
database (one disabled endpoint, one enabled), and the selection soundness
applied to the resulting selection of endpoint 2. -/
theorem C6_candidate_set_witness :
    ((mkEp 2) ∈ get_endpoints_by_pool [{ mkEp 1 with enabled := false }, mkEp 2]
        PoolType.tool ↔
      (mkEp 2) ∈ [{ mkEp 1 with enabled := false }, mkEp 2] ∧
        (mkEp 2).pool_type = some PoolType.tool ∧ (mkEp 2).enabled = true) ∧
    (∃ e, e ∈ [{ mkEp 1 with enabled := false }, mkEp 2] ∧
      e.pool_type = some PoolType.tool ∧ e.enabled = true ∧
      e.provider.isSome = true ∧
      ({ endpoint_id := 2, provider_id := 1, provider_name := "prov-on"
         base_url := "http://up", api_key := "key", model_id := "m2"
         api_format := ApiFormat.openai, timeout := 60 } : SelectedEndpoint).endpoint_id
        = e.id) := by
  refine ⟨(C6_candidate_set [{ mkEp 1 with enabled := false }, mkEp 2] PoolType.tool).1
    (mkEp 2), ?_⟩
  exact (C6_candidate_set [{ mkEp 1 with enabled := false }, mkEp 2] PoolType.tool).2
    freshPM [] 0 _ (by decide)

/-! ## C3 — smooth weighted round robin -/

theorem gval_dictSet_ne (s : List (Nat × Int)) (e : Endpoint) (i : Nat) (v : Int)
    (h : e.id ≠ i) : gval (dictSet s i v) e = gval s e := by
  unfold gval
  rw [dictGet_dictSet_ne _ _ _ _ (Ne.symm h)]

/-- The state left by the comparison loop: every processed endpoint holds
its incremented value, every other key is untouched. -/
theorem swrrGo_state :
    ∀ (l : List Endpoint) (s : List (Nat × Int)) (b : Option Endpoint) (m : Option Int),
      (l.map Endpoint.id).Nodup →
      (∀ e ∈ l, dictGet (swrrGo s b m l).1 e.id = some (gval s e)) ∧
      (∀ id, id ∉ l.map Endpoint.id → dictGet (swrrGo s b m l).1 id = dictGet s id) := by
  intro l
  induction l with
  | nil =>
    intro s b m _
    exact ⟨fun e he => absurd he (List.not_mem_nil e), fun id _ => rfl⟩
  | cons a rest ih =>
    intro s b m hnd
    simp only [List.map_cons, List.nodup_cons] at hnd
    obtain ⟨hna, hnrest⟩ := hnd
    have hstep : ∀ (b' : Option Endpoint) (m' : Option Int),
        (swrrGo s b m (a :: rest)).1
          = (swrrGo (dictSet s a.id (gval s a)) b' m' rest).1 →
        (∀ e ∈ a :: rest, dictGet (swrrGo s b m (a :: rest)).1 e.id = some (gval s e)) ∧
        (∀ id, id ∉ (a :: rest).map Endpoint.id →
          dictGet (swrrGo s b m (a :: rest)).1 id = dictGet s id) := by
      intro b' m' heq
      obtain ⟨ih1, ih2⟩ := ih (dictSet s a.id (gval s a)) b' m' hnrest
      constructor
      · intro e he
        rcases List.mem_cons.mp he with rfl | he'
        · rw [heq, ih2 e.id (by simpa using hna)]
          exact dictGet_dictSet_self _ _ _
        · rw [heq, ih1 e he']
          congr 1
          exact gval_dictSet_ne s e a.id (gval s a)
            (fun hh => hna (hh ▸ (List.mem_map_of_mem Endpoint.id he')))
      · intro id hid
        simp only [List.map_cons, List.mem_cons, not_or] at hid
        obtain ⟨hid1, hid2⟩ := hid
        rw [heq, ih2 id hid2, dictGet_dictSet_ne _ _ _ _ (Ne.symm hid1)]
    cases m with
    | none => exact hstep (some a) (some (gval s a)) rfl
    | some mv =>
      by_cases hgt : (dictGet s a.id).getD 0 + weightOr1 a > mv
      · refine hstep (some a) (some (gval s a)) ?_
        simp only [swrrGo, hgt, if_true]
        rfl
      · refine hstep b (some mv) ?_
        simp only [swrrGo, hgt, if_false]
        rfl

/-- The winner of the comparison loop, relative to a current best with
threshold `m`: either nothing beats `m` and the best is kept, or the list
splits around the first maximum `w`: everything before it is strictly
below `gval w`, everything after is at most `gval w`. -/
theorem swrrGo_best_char :
    ∀ (l : List Endpoint) (s : List (Nat × Int)) (b : Endpoint) (m : Int),
      (l.map Endpoint.id).Nodup →
      ((∀ e ∈ l, gval s e ≤ m) ∧ (swrrGo s (some b) (some m) l).2 = some b) ∨
      (∃ w l₁ l₂, l = l₁ ++ w :: l₂ ∧ (swrrGo s (some b) (some m) l).2 = some w ∧
        m < gval s w ∧ (∀ e ∈ l₁, gval s e < gval s w) ∧
        (∀ e ∈ l₂, gval s e ≤ gval s w)) := by
  intro l
  induction l with
  | nil =>
    intro s b m _
    left
    exact ⟨fun e he => absurd he (List.not_mem_nil e), rfl⟩
  | cons a rest ih =>
    intro s b m hnd
    simp only [List.map_cons, List.nodup_cons] at hnd
    obtain ⟨hna, hnrest⟩ := hnd
    have htransport : ∀ e ∈ rest, gval (dictSet s a.id (gval s a)) e = gval s e :=
      fun e he => gval_dictSet_ne s e a.id (gval s a)
        (fun hh => hna (hh ▸ (List.mem_map_of_mem Endpoint.id he)))
    by_cases hgt : (dictGet s a.id).getD 0 + weightOr1 a > m
    · have hunfold : swrrGo s (some b) (some m) (a :: rest)
          = swrrGo (dictSet s a.id (gval s a)) (some a) (some (gval s a)) rest := by
        simp only [swrrGo, hgt, if_true]
        rfl
      rcases ih (dictSet s a.id (gval s a)) a (gval s a) hnrest with ⟨hall, hbest⟩ | hdec
      · right
        refine ⟨a, [], rest, by simp, by rw [hunfold]; exact hbest, hgt, by simp, ?_⟩
        intro e he
        rw [← htransport e he]
        exact hall e he
      · obtain ⟨w, l₁, l₂, hsplit, hbest, hm, hl₁, hl₂⟩ := hdec
        right
        have hwrest : w ∈ rest := by
          rw [hsplit]
          exact List.mem_append_right _ (List.mem_cons_self _ _)
        have hgw : gval (dictSet s a.id (gval s a)) w = gval s w := htransport w hwrest
        rw [hgw] at hm
        have hgt' : m < gval s a := hgt
        refine ⟨w, a :: l₁, l₂, by simp [hsplit], by rw [hunfold]; exact hbest, ?_, ?_, ?_⟩
        · exact lt_trans hgt' hm
        · intro e he
          rcases List.mem_cons.mp he with rfl | he'
          · exact hm
          · have he'rest : e ∈ rest := by
              rw [hsplit]
              exact List.mem_append_left _ he'
            rw [← htransport e he'rest, ← hgw]
            exact hl₁ e he'
        · intro e he
          have herest : e ∈ rest := by
            rw [hsplit]
            exact List.mem_append_right _ (List.mem_cons_of_mem _ he)
          rw [← htransport e herest, ← hgw]
          exact hl₂ e he
    · have hunfold : swrrGo s (some b) (some m) (a :: rest)
          = swrrGo (dictSet s a.id (gval s a)) (some b) (some m) rest := by
        simp only [swrrGo, hgt, if_false]
        rfl
      rcases ih (dictSet s a.id (gval s a)) b m hnrest with ⟨hall, hbest⟩ | hdec
      · left
        refine ⟨?_, by rw [hunfold]; exact hbest⟩
        intro e he
        rcases List.mem_cons.mp he with rfl | he'
        · exact not_lt.mp hgt
        · rw [← htransport e he']
          exact hall e he'
      · obtain ⟨w, l₁, l₂, hsplit, hbest, hm, hl₁, hl₂⟩ := hdec
        right
        have hwrest : w ∈ rest := by
          rw [hsplit]
          exact List.mem_append_right _ (List.mem_cons_self _ _)
        have hgw : gval (dictSet s a.id (gval s a)) w = gval s w := htransport w hwrest
        refine ⟨w, a :: l₁, l₂, by simp [hsplit], by rw [hunfold]; exact hbest, ?_, ?_, ?_⟩
        · rw [hgw] at hm
          exact hm
        · intro e he
          rcases List.mem_cons.mp he with rfl | he'
          · rw [hgw] at hm
            exact lt_of_le_of_lt (not_lt.mp hgt) hm
          · have he'rest : e ∈ rest := by
              rw [hsplit]
              exact List.mem_append_left _ he'
            rw [← htransport e he'rest, ← hgw]
            exact hl₁ e he'
        · intro e he
          have herest : e ∈ rest := by
            rw [hsplit]
            exact List.mem_append_right _ (List.mem_cons_of_mem _ he)
          rw [← htransport e herest, ← hgw]
          exact hl₂ e he

/-- C3 (counterexample): the claim's tie-break order — "a stable iteration
order sorted by endpoint id" — is not the code's.  `get_endpoints_by_pool`
iterates in weight-descending order: with `E1(id 1, weight 1)` and
`E2(id 2, weight 3)`, four dispatches of the code give `E2, E2, E1, E2`,
while the claim's id-sorted iteration gives `E2, E1, E2, E2` (the state tie
at the second dispatch is broken toward `E2`, the first endpoint in
weight-descending order, not toward `E1`, the first in id order). -/
theorem C3_id_order_counterexample :
    selectRun [epw 1 1, epw 2 3] [] PoolType.tool 0 freshPM 4 = [2, 2, 1, 2] ∧
    specRunIdOrder [epw 1 1, epw 2 3] [] 4 = [2, 1, 2, 2] ∧
    ([2, 2, 1, 2] : List Nat) ≠ [2, 1, 2, 2] :=
  ⟨by decide, by decide, by decide⟩

/-- C3 (amended): each selection adds `w_e` to `S[e]` for every available
endpoint, picks the first endpoint attaining the largest resulting value —
ties are broken toward the first endpoint in the iteration order, which is
the endpoint list sorted by descending weight (stable), not by endpoint
id — and subtracts the total weight from the winner.  `w_e` is the
endpoint's weight with `None` and `0` replaced by 1, which agrees with
`max(weight, 1)` for the non-negative weights in scope.  For the pool
`E1(weight 3), E2(weight 1)` the four-dispatch sequence is exactly
`E1, E1, E2, E1`. -/
theorem C3_swrr_selection :
    (∀ (s : List (Nat × Int)) (a : Endpoint) (rest : List Endpoint),
      (((a :: rest).map Endpoint.id).Nodup) →
      ∃ w l₁ l₂, (swrrLoop s (a :: rest)).2 = some w ∧
        a :: rest = l₁ ++ w :: l₂ ∧
        (∀ e ∈ l₁, gval s e < gval s w) ∧
        (∀ e ∈ a :: rest, gval s e ≤ gval s w) ∧
        (∀ e ∈ a :: rest, dictGet (swrrLoop s (a :: rest)).1 e.id = some (gval s e)) ∧
        dictGet (dictSet (swrrLoop s (a :: rest)).1 w.id
            ((dictGet (swrrLoop s (a :: rest)).1 w.id).getD 0
              - ((a :: rest).map weightOr1).sum)) w.id
          = some (gval s w - ((a :: rest).map weightOr1).sum)) ∧
    (∀ (e : Endpoint) (w' : Int), e.weight = some w' → 0 ≤ w' → weightOr1 e = max w' 1) ∧
    (∀ e : Endpoint, e.weight = none → weightOr1 e = 1) ∧
    selectRun [epw 1 3, epw 2 1] [] PoolType.tool 0 freshPM 4 = [1, 1, 2, 1] := by
  refine ⟨?_, ?_, ?_, by decide⟩
  · intro s a rest hnd
    have hnd' := hnd
    simp only [List.map_cons, List.nodup_cons] at hnd'
    obtain ⟨hna, hnrest⟩ := hnd'
    obtain ⟨hpt0, _⟩ := swrrGo_state (a :: rest) s none none hnd
    have hpt : ∀ e ∈ a :: rest, dictGet (swrrLoop s (a :: rest)).1 e.id = some (gval s e) :=
      hpt0
    have hloop : swrrLoop s (a :: rest)
        = swrrGo (dictSet s a.id (gval s a)) (some a) (some (gval s a)) rest := rfl
    have htransport : ∀ e ∈ rest, gval (dictSet s a.id (gval s a)) e = gval s e :=
      fun e he => gval_dictSet_ne s e a.id (gval s a)
        (fun hh => hna (hh ▸ (List.mem_map_of_mem Endpoint.id he)))
    rcases swrrGo_best_char rest (dictSet s a.id (gval s a)) a (gval s a) hnrest with
      ⟨hall, hbest⟩ | ⟨w, l₁, l₂, hsplit, hbest, hm, hl₁, hl₂⟩
    · refine ⟨a, [], rest, by rw [hloop]; exact hbest, by simp, by simp, ?_, hpt, ?_⟩
      · intro e he
        rcases List.mem_cons.mp he with rfl | he'
        · exact le_refl _
        · rw [← htransport e he']
          exact hall e he'
      · rw [hpt a (List.mem_cons_self _ _)]
        exact dictGet_dictSet_self _ _ _
    · have hwrest : w ∈ rest := by
        rw [hsplit]
        exact List.mem_append_right _ (List.mem_cons_self _ _)
      have hgw : gval (dictSet s a.id (gval s a)) w = gval s w := htransport w hwrest
      rw [hgw] at hm
      refine ⟨w, a :: l₁, l₂, by rw [hloop]; exact hbest, by simp [hsplit], ?_, ?_, hpt, ?_⟩
      · intro e he
        rcases List.mem_cons.mp he with rfl | he'
        · exact hm
        · have he'rest : e ∈ rest := by
            rw [hsplit]
            exact List.mem_append_left _ he'
          rw [← htransport e he'rest, ← hgw]
          exact hl₁ e he'
      · intro e he
        rcases List.mem_cons.mp he with rfl | he'
        · exact le_of_lt hm
        · have he'rest : e ∈ rest := by
            rw [hsplit]
            rcases (List.mem_append.mp (hsplit ▸ he')) with h1 | h1
            · exact List.mem_append_left _ h1
            · exact List.mem_append_right _ h1
          rw [← htransport e he'rest, ← hgw]
          rcases List.mem_append.mp (hsplit ▸ he'rest) with h1 | h1
          · exact le_of_lt (hl₁ e h1)
          · rcases List.mem_cons.mp h1 with rfl | h2
            · exact le_refl _
            · exact hl₂ e h2
      · rw [hpt w (List.mem_cons_of_mem _ hwrest)]
        exact dictGet_dictSet_self _ _ _
  · intro e w' hw hnn
    have hval : weightOr1 e = if w' = 0 then 1 else w' := by
      simp [weightOr1, hw]
    rw [hval]
    by_cases h0 : w' = 0
    · simp [h0]
    · rw [if_neg h0]
      exact (max_eq_left (by omega : (1 : Int) ≤ w')).symm
  · intro e he
    simp [weightOr1, he]

/-- C3 (witness): the selection-step characterization applied to the fresh
two-endpoint pool `E1(weight 3), E2(weight 1)`, and the weight formula at
`E1`. -/
theorem C3_swrr_selection_witness :
    (∃ w l₁ l₂, (swrrLoop [] [epw 1 3, epw 2 1]).2 = some w ∧
      [epw 1 3, epw 2 1] = l₁ ++ w :: l₂ ∧
      (∀ e ∈ l₁, gval [] e < gval [] w) ∧
      (∀ e ∈ [epw 1 3, epw 2 1], gval [] e ≤ gval [] w) ∧
      (∀ e ∈ [epw 1 3, epw 2 1],
        dictGet (swrrLoop [] [epw 1 3, epw 2 1]).1 e.id = some (gval [] e)) ∧
      dictGet (dictSet (swrrLoop [] [epw 1 3, epw 2 1]).1 w.id
          ((dictGet (swrrLoop [] [epw 1 3, epw 2 1]).1 w.id).getD 0
            - ([epw 1 3, epw 2 1].map weightOr1).sum)) w.id
        = some (gval [] w - ([epw 1 3, epw 2 1].map weightOr1).sum)) ∧
    weightOr1 (epw 1 3) = max 3 1 := by
  constructor
  · exact C3_swrr_selection.1 [] (epw 1 3) [epw 2 1] (by decide)
  · exact C3_swrr_selection.2.1 (epw 1 3) 3 rfl (by decide)

/-! ## Shared facts about outcome reporting -/

theorem mark_failure_logs (st : GatewayState) (id now : Nat) :
    (mark_failure st id now).logs = st.logs := by
  unfold mark_failure
  cases dictGet st.stats id <;> rfl

theorem mark_failure_pm (st : GatewayState) (id now : Nat) :
    (mark_failure st id now).pm = st.pm := by
  unfold mark_failure
  cases dictGet st.stats id <;> rfl

theorem mark_failure_stats (st : GatewayState) (id now : Nat) (e : EndpointStats)
    (h : dictGet st.stats id = some e) :
    dictGet (mark_failure st id now).stats id
      = some (increment_endpoint_stats e false 0 now) := by
  unfold mark_failure
  rw [h]
  exact dictGet_dictSet_self _ _ _

/-! ## C10 — the in-band error sniff drops legitimate frames -/

/-- C10: during body forwarding, the first chunk whose text contains both
`"error":` and `"message":` stops the stream: the frames already produced
by the preceding chunks are all that is yielded (nothing of the offending
chunk or of anything after it), and consuming the stream marks the
endpoint failed and appends one failure log — even when the chunk is a
well-formed data frame whose JSON merely happens to contain those
substrings, as the witness shows. -/
theorem C10_stream_error_sniff :
    (∀ (orig : String) (pre : List String) (c : String) (post : List String),
      (∀ x ∈ pre, streamErrorMarker x = false) →
      streamErrorMarker c = true →
      consumeChunks orig (pre ++ c :: post)
        = ((pre.map (fun x => process_stream_chunk x orig)).flatten,
           some ("Stream contained error: " ++ pyTake c 100))) ∧
    (∀ (st : GatewayState) (up : Upstream) (h : StreamHandle) (now : Nat)
        (body : String) (pre : List String) (c : String) (post : List String),
      up h.endpoint.endpoint_id = .respond 200 body (pre ++ c :: post) →
      (∀ x ∈ pre, streamErrorMarker x = false) →
      streamErrorMarker c = true →
      (run_stream st up h now).1
        = (pre.map (fun x => process_stream_chunk x h.original_model)).flatten ∧
      (run_stream st up h now).2.stats
        = (mark_failure st h.endpoint.endpoint_id now).stats ∧
      (run_stream st up h now).2.logs = st.logs ++
        [{ pool_type := model_to_pool_type h.original_model
           requested_model := h.original_model, actual_model := h.endpoint.model_id
           provider_name := h.endpoint.provider_name, success := false
           status_code := none
           error_message := some ("Stream contained error: " ++ pyTake c 100)
           latency_ms := 0, input_tokens := none, output_tokens := none }]) := by
  have hcons : ∀ (orig : String) (pre : List String) (c : String) (post : List String),
      (∀ x ∈ pre, streamErrorMarker x = false) →
      streamErrorMarker c = true →
      consumeChunks orig (pre ++ c :: post)
        = ((pre.map (fun x => process_stream_chunk x orig)).flatten,
           some ("Stream contained error: " ++ pyTake c 100)) := by
    intro orig pre c post hpre hc
    induction pre with
    | nil => simp [consumeChunks, hc]
    | cons x xs ih =>
      have hx : streamErrorMarker x = false := hpre x (List.mem_cons_self _ _)
      have ihr := ih (fun y hy => hpre y (List.mem_cons_of_mem _ hy))
      simp only [List.cons_append, consumeChunks, hx, Bool.false_eq_true, if_false,
        List.append_eq]
      rw [ihr]
      simp
  refine ⟨hcons, ?_⟩
  intro st up h now body pre c post hup hpre hc
  have hlog : (mark_failure st h.endpoint.endpoint_id now).logs = st.logs := by
    unfold mark_failure
    cases dictGet st.stats h.endpoint.endpoint_id <;> rfl
  unfold run_stream
  rw [hup]
  simp only [if_neg (by omega : ¬ (200 : Nat) ≠ 200), Ne, not_true_eq_false,
    Bool.false_eq_true, if_false]
  rw [hcons h.original_model pre c post hpre hc]
  exact ⟨rfl, rfl, by rw [hlog]⟩

/-- C10 (witness): one clean frame, then a legitimate data frame whose
JSON value contains an `error` key and a `message` key: the downstream
output stops after the first frame, the error sniff fires and the endpoint
is marked failed. -/
theorem C10_stream_error_sniff_witness :
    (run_stream { pm := freshPM, stats := [(1, EndpointStats.zero)], logs := [] }
        (fun _ => UpstreamBehavior.respond 200 ""
          ["data: \x7b\"x\": 1\x7d\n\n",
           "data: \x7b\"result\": \x7b\"error\": 0, \"message\": \"ok\"\x7d\x7d\n\n",
           "data: [DONE]\n\n"])
        { endpoint := { endpoint_id := 1, provider_id := 1, provider_name := "prov-on"
                        base_url := "http://up", api_key := "key", model_id := "m1"
                        api_format := ApiFormat.openai, timeout := 60 }
          original_model := "sonnet" } 7).1
      = (["data: \x7b\"x\": 1\x7d\n\n"].map
          (fun x => process_stream_chunk x "sonnet")).flatten ∧
    (run_stream { pm := freshPM, stats := [(1, EndpointStats.zero)], logs := [] }
        (fun _ => UpstreamBehavior.respond 200 ""
          ["data: \x7b\"x\": 1\x7d\n\n",
           "data: \x7b\"result\": \x7b\"error\": 0, \"message\": \"ok\"\x7d\x7d\n\n",
           "data: [DONE]\n\n"])
        { endpoint := { endpoint_id := 1, provider_id := 1, provider_name := "prov-on"
                        base_url := "http://up", api_key := "key", model_id := "m1"
                        api_format := ApiFormat.openai, timeout := 60 }
          original_model := "sonnet" } 7).2.stats
      = (mark_failure { pm := freshPM, stats := [(1, EndpointStats.zero)], logs := [] }
          1 7).stats := by
  have h := C10_stream_error_sniff.2
    { pm := freshPM, stats := [(1, EndpointStats.zero)], logs := [] }
    (fun _ => UpstreamBehavior.respond 200 ""
      ["data: \x7b\"x\": 1\x7d\n\n",
       "data: \x7b\"result\": \x7b\"error\": 0, \"message\": \"ok\"\x7d\x7d\n\n",
       "data: [DONE]\n\n"])
    { endpoint := { endpoint_id := 1, provider_id := 1, provider_name := "prov-on"
                    base_url := "http://up", api_key := "key", model_id := "m1"
                    api_format := ApiFormat.openai, timeout := 60 }
      original_model := "sonnet" } 7 ""
    ["data: \x7b\"x\": 1\x7d\n\n"]
    "data: \x7b\"result\": \x7b\"error\": 0, \"message\": \"ok\"\x7d\x7d\n\n"
    ["data: [DONE]\n\n"] rfl (by decide) (by decide)
  exact ⟨h.1, h.2.1⟩

/-! ## C1 — streaming upstream error and the (im)possibility of failover -/

/-- On a streaming request `forward_request` returns as soon as one
selection succeeds: the dispatch trace grows by at most one endpoint. -/
theorem forwardLoop_stream_trace (up : Upstream) (db : List Endpoint) (pools : List Pool)
    (pool : PoolType) (orig : String) (now : Nat) (n : Nat) (st : GatewayState)
    (last : String) (tr : List Nat) :
    (forwardLoop up db pools pool orig true now n st last tr).2.2 = tr ∨
    ∃ x, (forwardLoop up db pools pool orig true now n st last tr).2.2 = tr ++ [x] := by
  cases n with
  | zero =>
    left
    rfl
  | succ m =>
    simp only [forwardLoop]
    rcases hsel : select_endpoint st.pm db pools pool now with ⟨o, pm'⟩
    cases o with
    | none =>
      left
      rfl
    | some sel =>
      right
      exact ⟨sel.endpoint_id, rfl⟩

/-- C1 (counterexample): the claim asserts that the error raised on a
non-2xx streaming response allows the outer retry loop to fail over to
another endpoint.  With two healthy endpoints in the pool and the first
one answering 503 (a retryable status), the streaming `forward_request`
dispatches only endpoint 1 — the generator is returned before any upstream
I/O, the `HTTPStatusError` raised inside it is swallowed by its own
`except` arm, and consuming the stream yields no frames, records one
failure, and never touches endpoint 2. -/
theorem C1_stream_failover_counterexample :
    (503 ∈ RETRIABLE_STATUS_CODES) ∧
    (forward_request
        { pm := freshPM, stats := [(1, EndpointStats.zero), (2, EndpointStats.zero)]
          logs := [] }
        (fun i => if i = 1 then UpstreamBehavior.respond 503 "overloaded" []
                  else UpstreamBehavior.respond 200 "" ["data: [DONE]\n\n"])
        [{ mkEp 1 with pool_type := some PoolType.normal, weight := some 2 },
         { mkEp 2 with pool_type := some PoolType.normal, weight := some 1 }]
        [] PoolType.normal [("model", Json.str "sonnet")] true 0).2.2 = [1] ∧
    (run_stream
        (forward_request
          { pm := freshPM, stats := [(1, EndpointStats.zero), (2, EndpointStats.zero)]
            logs := [] }
          (fun i => if i = 1 then UpstreamBehavior.respond 503 "overloaded" []
                    else UpstreamBehavior.respond 200 "" ["data: [DONE]\n\n"])
          [{ mkEp 1 with pool_type := some PoolType.normal, weight := some 2 },
           { mkEp 2 with pool_type := some PoolType.normal, weight := some 1 }]
          [] PoolType.normal [("model", Json.str "sonnet")] true 0).2.1
        (fun i => if i = 1 then UpstreamBehavior.respond 503 "overloaded" []
                  else UpstreamBehavior.respond 200 "" ["data: [DONE]\n\n"])
        { endpoint := { endpoint_id := 1, provider_id := 1, provider_name := "prov-on"
                        base_url := "http://up", api_key := "key", model_id := "m1"
                        api_format := ApiFormat.openai, timeout := 60 }
          original_model := "sonnet" } 0).1 = [] ∧
    (run_stream
        (forward_request
          { pm := freshPM, stats := [(1, EndpointStats.zero), (2, EndpointStats.zero)]
            logs := [] }
          (fun i => if i = 1 then UpstreamBehavior.respond 503 "overloaded" []
                    else UpstreamBehavior.respond 200 "" ["data: [DONE]\n\n"])
          [{ mkEp 1 with pool_type := some PoolType.normal, weight := some 2 },
           { mkEp 2 with pool_type := some PoolType.normal, weight := some 1 }]
          [] PoolType.normal [("model", Json.str "sonnet")] true 0).2.1
        (fun i => if i = 1 then UpstreamBehavior.respond 503 "overloaded" []
                  else UpstreamBehavior.respond 200 "" ["data: [DONE]\n\n"])
        { endpoint := { endpoint_id := 1, provider_id := 1, provider_name := "prov-on"
                        base_url := "http://up", api_key := "key", model_id := "m1"
                        api_format := ApiFormat.openai, timeout := 60 }
          original_model := "sonnet" } 0).2.logs
      = [{ pool_type := PoolType.normal, requested_model := "sonnet"
           actual_model := "m1", provider_name := "prov-on", success := false
           status_code := none
           error_message := some "HTTP 503: b'overloaded'"
           latency_ms := 0, input_tokens := none, output_tokens := none }] ∧
    dictGet (run_stream
        (forward_request
          { pm := freshPM, stats := [(1, EndpointStats.zero), (2, EndpointStats.zero)]
            logs := [] }
          (fun i => if i = 1 then UpstreamBehavior.respond 503 "overloaded" []
                    else UpstreamBehavior.respond 200 "" ["data: [DONE]\n\n"])
          [{ mkEp 1 with pool_type := some PoolType.normal, weight := some 2 },
           { mkEp 2 with pool_type := some PoolType.normal, weight := some 1 }]
          [] PoolType.normal [("model", Json.str "sonnet")] true 0).2.1
        (fun i => if i = 1 then UpstreamBehavior.respond 503 "overloaded" []
                  else UpstreamBehavior.respond 200 "" ["data: [DONE]\n\n"])
        { endpoint := { endpoint_id := 1, provider_id := 1, provider_name := "prov-on"
                        base_url := "http://up", api_key := "key", model_id := "m1"
                        api_format := ApiFormat.openai, timeout := 60 }
          original_model := "sonnet" } 0).2.stats 2 = some EndpointStats.zero := by
  exact ⟨by decide, rfl, rfl, rfl, rfl⟩

/-- C1 (amended): on a streaming attempt whose upstream answers a non-200
status, the generator drains the error body and raises internally before
any data frame is yielded: consuming the stream yields nothing, appends
exactly one failure log carrying the classified `HTTP <status>: <body>`
message, and increments the endpoint's error counter — but the exception
is caught inside the generator itself, and since `forward_request` already
returned the iterator after its first successful selection (the dispatch
trace of any streaming call holds at most one endpoint), the outer retry
loop performs no failover. -/
theorem C1_stream_non2xx (st : GatewayState) (up : Upstream) (h : StreamHandle)
    (now status : Nat) (body : String) (chunks : List String)
    (hup : up h.endpoint.endpoint_id = .respond status body chunks)
    (hne : status ≠ 200) :
    (run_stream st up h now).1 = [] ∧
    (run_stream st up h now).2.logs = st.logs ++
      [{ pool_type := model_to_pool_type h.original_model
         requested_model := h.original_model, actual_model := h.endpoint.model_id
         provider_name := h.endpoint.provider_name, success := false
         status_code := none
         error_message := some ("HTTP " ++ toString status ++ ": "
           ++ pyBytesRepr (pyTake body 200))
         latency_ms := 0, input_tokens := none, output_tokens := none }] ∧
    (∀ e, dictGet st.stats h.endpoint.endpoint_id = some e →
      dictGet (run_stream st up h now).2.stats h.endpoint.endpoint_id
        = some (increment_endpoint_stats e false 0 now)) ∧
    (∀ (db : List Endpoint) (pools : List Pool) (pool : PoolType)
        (bdy : List (String × Json)) (stF : GatewayState),
      (forward_request stF up db pools pool bdy true now).2.2.length ≤ 1) := by
  have hrun : run_stream st up h now
      = ([], { mark_failure st h.endpoint.endpoint_id now with
               logs := (mark_failure st h.endpoint.endpoint_id now).logs ++
                 [{ pool_type := model_to_pool_type h.original_model
                    requested_model := h.original_model
                    actual_model := h.endpoint.model_id
                    provider_name := h.endpoint.provider_name, success := false
                    status_code := none
                    error_message := some ("HTTP " ++ toString status ++ ": "
                      ++ pyBytesRepr (pyTake body 200))
                    latency_ms := 0, input_tokens := none, output_tokens := none }] }) := by
    unfold run_stream
    rw [hup]
    dsimp only
    rw [if_pos hne]
  refine ⟨by rw [hrun], ?_, ?_, ?_⟩
  · rw [hrun]
    simp [mark_failure_logs]
  · intro e he
    rw [hrun]
    simp only
    exact mark_failure_stats st h.endpoint.endpoint_id now e he
  · intro db pools pool bdy stF
    unfold forward_request
    rcases forwardLoop_stream_trace up db pools pool
        (match dictGet bdy "model" with
         | some (.str s) => s
         | _ => "unknown") now MAX_ENDPOINT_ATTEMPTS stF "" [] with htr | ⟨x, htr⟩
    · rw [htr]
      simp
    · rw [htr]
      simp

/-- C1 (witness): the non-200 streaming theorem applied to a 401 upstream
on endpoint 1 at instant 3. -/
theorem C1_stream_non2xx_witness :
    (run_stream { pm := freshPM, stats := [(1, EndpointStats.zero)], logs := [] }
        (fun _ => UpstreamBehavior.respond 401 "nope" [])
        { endpoint := { endpoint_id := 1, provider_id := 1, provider_name := "prov-on"
                        base_url := "http://up", api_key := "key", model_id := "m1"
                        api_format := ApiFormat.openai, timeout := 60 }
          original_model := "sonnet" } 3).1 = [] ∧
    dictGet (run_stream { pm := freshPM, stats := [(1, EndpointStats.zero)], logs := [] }
        (fun _ => UpstreamBehavior.respond 401 "nope" [])
        { endpoint := { endpoint_id := 1, provider_id := 1, provider_name := "prov-on"
                        base_url := "http://up", api_key := "key", model_id := "m1"
                        api_format := ApiFormat.openai, timeout := 60 }
          original_model := "sonnet" } 3).2.stats 1
      = some (increment_endpoint_stats EndpointStats.zero false 0 3) ∧
    (forward_request { pm := freshPM, stats := [(1, EndpointStats.zero)], logs := [] }
        (fun _ => UpstreamBehavior.respond 401 "nope" []) [] [] PoolType.normal []
        true 3).2.2.length ≤ 1 := by
  have hh := C1_stream_non2xx
    { pm := freshPM, stats := [(1, EndpointStats.zero)], logs := [] }
    (fun _ => UpstreamBehavior.respond 401 "nope" [])
    { endpoint := { endpoint_id := 1, provider_id := 1, provider_name := "prov-on"
                    base_url := "http://up", api_key := "key", model_id := "m1"
                    api_format := ApiFormat.openai, timeout := 60 }
      original_model := "sonnet" } 3 401 "nope" [] rfl (by decide)
  exact ⟨hh.1, hh.2.2.1 EndpointStats.zero rfl,
    hh.2.2.2 [] [] PoolType.normal []
      { pm := freshPM, stats := [(1, EndpointStats.zero)], logs := [] }⟩

/-! ## C2 — terminal 4xx handling, and the parking that never happens -/

theorem dictGet_none_of_not_mem_keys {κ α : Type} [DecidableEq κ] (m : List (κ × α)) (k : κ)
    (h : k ∉ m.map Prod.fst) : dictGet m k = none := by
  induction m with
  | nil => rfl
  | cons p rest ih =>
    obtain ⟨k', v'⟩ := p
    simp only [List.map_cons, List.mem_cons, not_or] at h
    simp [dictGet, Ne.symm h.1, ih h.2]

theorem dictDel_keys_sublist {κ α : Type} [DecidableEq κ] (m : List (κ × α)) (k : κ) :
    ((dictDel m k).map Prod.fst).Sublist (m.map Prod.fst) := by
  induction m with
  | nil => simp [dictDel]
  | cons p rest ih =>
    obtain ⟨k', v'⟩ := p
    by_cases h : k' = k
    · simp only [dictDel, h, if_true, List.map_cons]
      exact (List.sublist_cons_self _ _)
    · simp only [dictDel, h, if_false, List.map_cons]
      exact ih.cons₂ _

theorem dictGet_dictDel_sub {κ α : Type} [DecidableEq κ] (m : List (κ × α)) (k j : κ)
    (u : α) (hnd : (m.map Prod.fst).Nodup) (h : dictGet (dictDel m k) j = some u) :
    dictGet m j = some u := by
  induction m with
  | nil => simp [dictDel, dictGet] at h
  | cons p rest ih =>
    obtain ⟨k', v'⟩ := p
    simp only [List.map_cons, List.nodup_cons] at hnd
    obtain ⟨hk', hrest⟩ := hnd
    by_cases h1 : k' = k
    · subst h1
      simp only [dictDel, if_true] at h
      by_cases h2 : k' = j
      · subst h2
        rw [dictGet_none_of_not_mem_keys rest k' hk'] at h
        cases h
      · simp [dictGet, h2, h]
    · simp only [dictDel, h1, if_false] at h
      by_cases h2 : k' = j
      · subst h2
        simp only [dictGet, if_pos rfl] at h ⊢
        exact h
      · simp only [dictGet, h2, if_false] at h ⊢
        exact ih hrest h

/-- `is_cooling` either keeps the map or deletes the probed key. -/
theorem is_cooling_cooldowns (m : CooldownManager) (now i : Nat) :
    (m.is_cooling now i).2.cooldowns = m.cooldowns ∨
    (m.is_cooling now i).2.cooldowns = dictDel m.cooldowns i := by
  unfold CooldownManager.is_cooling
  cases dictGet m.cooldowns i with
  | none => left; rfl
  | some u =>
    by_cases h : now ≥ u
    · right
      simp [h]
    · left
      simp [h]

theorem is_cooling_cooldown_sub (m : CooldownManager) (now i j u : Nat)
    (hnd : (m.cooldowns.map Prod.fst).Nodup)
    (h : dictGet (m.is_cooling now i).2.cooldowns j = some u) :
    dictGet m.cooldowns j = some u := by
  rcases is_cooling_cooldowns m now i with heq | heq
  · rwa [heq] at h
  · rw [heq] at h
    exact dictGet_dictDel_sub _ _ _ _ hnd h

theorem is_cooling_cooldown_nodup (m : CooldownManager) (now i : Nat)
    (hnd : (m.cooldowns.map Prod.fst).Nodup) :
    ((m.is_cooling now i).2.cooldowns.map Prod.fst).Nodup := by
  rcases is_cooling_cooldowns m now i with heq | heq
  · rwa [heq]
  · rw [heq]
    exact (dictDel_keys_sublist _ _).nodup hnd

/-- Threading the cooldown manager through the availability filter never
adds or changes an entry of the cooldown map. -/
theorem filterAvailable_cooldown_sub (now : Nat) :
    ∀ (l : List Endpoint) (m : CooldownManager),
      (m.cooldowns.map Prod.fst).Nodup →
      (((filterAvailable m now l).2.cooldowns.map Prod.fst).Nodup ∧
       ∀ j u, dictGet (filterAvailable m now l).2.cooldowns j = some u →
         dictGet m.cooldowns j = some u) := by
  intro l
  induction l with
  | nil =>
    intro m hnd
    exact ⟨hnd, fun j u h => h⟩
  | cons ep rest ih =>
    intro m hnd
    unfold filterAvailable
    cases hprov : ep.provider with
    | none => exact ih m hnd
    | some p =>
      rcases hic : m.is_cooling now ep.id with ⟨c, m'⟩
      have hm'nd : (m'.cooldowns.map Prod.fst).Nodup := by
        have := is_cooling_cooldown_nodup m now ep.id hnd
        rwa [hic] at this
      have hm'sub : ∀ j u, dictGet m'.cooldowns j = some u →
          dictGet m.cooldowns j = some u := by
        intro j u h
        apply is_cooling_cooldown_sub m now ep.id j u hnd
        rw [hic]
        exact h
      obtain ⟨ihnd, ihsub⟩ := ih m' hm'nd
      cases c with
      | true =>
        simp only [if_true]
        exact ⟨ihnd, fun j u h => hm'sub j u (ihsub j u h)⟩
      | false =>
        simp only [Bool.false_eq_true, if_false]
        by_cases hint : (match ep.min_interval_seconds, ep.last_request_at with
          | some d, some t => decide (d > 0) && decide (now < t + d)
          | _, _ => false) = true
        · rw [if_pos hint]
          exact ⟨ihnd, fun j u h => hm'sub j u (ihsub j u h)⟩
        · rw [if_neg hint]
          rcases hfa : filterAvailable m' now rest with ⟨l', m''⟩
          refine ⟨?_, ?_⟩
          · have : ((filterAvailable m' now rest).2.cooldowns.map Prod.fst).Nodup := ihnd
            rwa [hfa] at this
          · intro j u h
            apply hm'sub j u
            apply ihsub j u
            rw [hfa]
            exact h

/-- Every return point of `select_endpoint` carries the cooldown manager
produced by the availability filter. -/
theorem select_endpoint_cooldown (st : PoolManagerState) (db : List Endpoint)
    (pools : List Pool) (pool : PoolType) (now : Nat) :
    (select_endpoint st db pools pool now).2.cooldown
      = (filterAvailable st.cooldown now (get_endpoints_by_pool db pool)).2 := by
  simp only [select_endpoint]
  rcases hfa : filterAvailable st.cooldown now (get_endpoints_by_pool db pool) with ⟨avail, mgr'⟩
  cases avail with
  | nil => rfl
  | cons a rest =>
    simp only
    rcases hloop : swrrLoop (swrrPrepare ((dictGet st.swrr pool).getD []) (a :: rest))
      (a :: rest) with ⟨state', best?⟩
    simp only
    cases (best?.getD a).provider <;> rfl

/-- One terminal attempt, as `runRetries` sees it: `mark_failure`, one log
record, and the verbatim error returned. -/
theorem runRetries_terminal (up : Upstream) (sel : SelectedEndpoint)
    (orig : String) (pool : PoolType) (now : Nat) (st : GatewayState)
    (status : Nat) (rbody : String) (chunks : List String) (n : Nat)
    (hup : up sel.endpoint_id = .respond status rbody chunks)
    (hns : isSuccessStatus status = false)
    (hnr : RETRIABLE_STATUS_CODES.contains status = false) :
    runRetries up sel orig pool now (n + 1) st
      = (.finished (.error ("HTTP " ++ toString status ++ ": " ++ pyTake rbody 200)),
         { mark_failure st sel.endpoint_id now with
           logs := (mark_failure st sel.endpoint_id now).logs
             ++ [failRecord pool orig sel (some status)
                  ("HTTP " ++ toString status ++ ": " ++ pyTake rbody 200)] }) := by
  simp only [runRetries, attemptNormal]
  rw [hup]
  dsimp only
  rw [hns]
  simp only [Bool.false_eq_true, if_false]
  rw [hnr]
  simp only [Bool.false_eq_true, if_false]

/-- The outer loop after a successful selection. -/
theorem forwardLoop_selected_step (up : Upstream) (db : List Endpoint)
    (pools : List Pool) (pool : PoolType) (orig : String) (now : Nat) (n : Nat)
    (st : GatewayState) (last : String) (tr : List Nat) (sel : SelectedEndpoint)
    (pm₁ : PoolManagerState)
    (hsel : select_endpoint st.pm db pools pool now = (some sel, pm₁)) :
    forwardLoop up db pools pool orig false now (n + 1) st last tr
      = (match runRetries up sel orig pool now ENDPOINT_RETRIES { st with pm := pm₁ } with
         | (.finished r, st₂) => (r, st₂, tr ++ [sel.endpoint_id])
         | (.nextEndpoint err, st₂) =>
           forwardLoop up db pools pool orig false now n st₂ err
             (tr ++ [sel.endpoint_id])) := by
  simp only [forwardLoop]
  rw [hsel]
  dsimp only
  rw [if_neg (by simp : ¬ (false = true))]

theorem charsStartWith_append (n m : List Char) : charsStartWith n (n ++ m) = true := by
  induction n with
  | nil => rfl
  | cons a as ih => simp [charsStartWith, ih]

theorem charsContain_of_startsWith (n h : List Char) (hs : charsStartWith n h = true) :
    charsContain n h = true := by
  cases h with
  | nil =>
    cases n with
    | nil => rfl
    | cons a as => simp [charsStartWith] at hs
  | cons b bs =>
    unfold charsContain
    rw [hs]
    simp

/-- C2 (counterexample): the claim asserts that a terminal 4xx parks the
endpoint.  `PoolManager.mark_failure` deliberately sets no cooldown and
`set_cooldown` is never invoked on this path: after a 401 from the pool's
only endpoint the forwarder returns the verbatim error and appends one
failure log, but the cooldown map is still empty — nothing was parked. -/
theorem C2_no_parking_counterexample :
    (forward_request { pm := freshPM, stats := [(1, EndpointStats.zero)], logs := [] }
        (fun _ => UpstreamBehavior.respond 401 "unauthorized" [])
        [{ mkEp 1 with pool_type := some PoolType.normal }] [] PoolType.normal
        [("model", Json.str "sonnet")] false 0).1
      = ForwardResult.error "HTTP 401: unauthorized" ∧
    (forward_request { pm := freshPM, stats := [(1, EndpointStats.zero)], logs := [] }
        (fun _ => UpstreamBehavior.respond 401 "unauthorized" [])
        [{ mkEp 1 with pool_type := some PoolType.normal }] [] PoolType.normal
        [("model", Json.str "sonnet")] false 0).2.2 = [1] ∧
    (forward_request { pm := freshPM, stats := [(1, EndpointStats.zero)], logs := [] }
        (fun _ => UpstreamBehavior.respond 401 "unauthorized" [])
        [{ mkEp 1 with pool_type := some PoolType.normal }] [] PoolType.normal
        [("model", Json.str "sonnet")] false 0).2.1.logs.length = 1 ∧
    (forward_request { pm := freshPM, stats := [(1, EndpointStats.zero)], logs := [] }
        (fun _ => UpstreamBehavior.respond 401 "unauthorized" [])
        [{ mkEp 1 with pool_type := some PoolType.normal }] [] PoolType.normal
        [("model", Json.str "sonnet")] false 0).2.1.pm.cooldown.cooldowns = [] :=
  ⟨rfl, rfl, rfl, rfl⟩

/-- C2 (amended): a non-streaming attempt answered with a terminal status
(a 4xx other than 429) is not retried and does not fail over: the
forwarder dispatches that single endpoint, calls `mark_failure`
(incrementing its error counter), appends exactly one failure record, and
returns the error verbatim — `HTTP <status>: ` plus the first 200
characters of the body, a string containing the upstream status — and the
HTTP layer surfaces any forwarder error as a 502 whose detail is that
string.  No endpoint is parked: the final cooldown map holds no entry that
was not already present. -/
theorem C2_terminal_4xx (st : GatewayState) (up : Upstream) (db : List Endpoint)
    (pools : List Pool) (pool : PoolType) (body : List (String × Json)) (now : Nat)
    (sel : SelectedEndpoint) (pm₁ : PoolManagerState) (status : Nat) (rbody : String)
    (chunks : List String)
    (hsel : select_endpoint st.pm db pools pool now = (some sel, pm₁))
    (hup : up sel.endpoint_id = .respond status rbody chunks)
    (h4 : 400 ≤ status) (h5 : status < 500) (h429 : status ≠ 429)
    (hwf : (st.pm.cooldown.cooldowns.map Prod.fst).Nodup) :
    (forward_request st up db pools pool body false now).1
      = ForwardResult.error ("HTTP " ++ toString status ++ ": " ++ pyTake rbody 200) ∧
    (forward_request st up db pools pool body false now).2.2 = [sel.endpoint_id] ∧
    (forward_request st up db pools pool body false now).2.1.logs = st.logs ++
      [failRecord pool
        (match dictGet body "model" with
         | some (.str s) => s
         | _ => "unknown") sel (some status)
        ("HTTP " ++ toString status ++ ": " ++ pyTake rbody 200)] ∧
    (∀ e, dictGet st.stats sel.endpoint_id = some e →
      dictGet (forward_request st up db pools pool body false now).2.1.stats
          sel.endpoint_id
        = some (increment_endpoint_stats e false 0 now)) ∧
    (∀ id u,
      dictGet (forward_request st up db pools pool body false now).2.1.pm.cooldown.cooldowns
          id = some u →
      dictGet st.pm.cooldown.cooldowns id = some u) ∧
    strContains ("HTTP " ++ toString status ++ ": " ++ pyTake rbody 200)
      ("HTTP " ++ toString status) = true ∧
    (∀ (s : Settings) (bdy : List (String × Json)) (model msg : String)
        (st' : GatewayState) (up' : Upstream) (db' : List Endpoint)
        (pools' : List Pool) (now' : Nat),
      dictGet bdy "model" = some (.str model) → model ≠ "" →
      (forward_request st' up' db' pools' (resolve_pool_type s model)
        (dictSet bdy "stream" (.bool true)) true now').1 = .error msg →
      (handle_request s st' up' db' pools' bdy now').1 = .httpError 502 msg) := by
  have hns : isSuccessStatus status = false := by
    simp only [isSuccessStatus, decide_eq_false_iff_not, not_and]
    omega
  have hnr : RETRIABLE_STATUS_CODES.contains status = false := by
    simp only [RETRIABLE_STATUS_CODES, List.contains, List.elem_eq_mem, List.mem_cons,
      List.not_mem_nil, or_false, decide_eq_false_iff_not, not_or]
    omega
  have hEN : ENDPOINT_RETRIES = 2 + 1 := rfl
  have hMAX : MAX_ENDPOINT_ATTEMPTS = 9 + 1 := rfl
  have hpath : forward_request st up db pools pool body false now
      = (ForwardResult.error ("HTTP " ++ toString status ++ ": " ++ pyTake rbody 200),
         { mark_failure { st with pm := pm₁ } sel.endpoint_id now with
           logs := (mark_failure { st with pm := pm₁ } sel.endpoint_id now).logs
             ++ [failRecord pool
                  (match dictGet body "model" with
                   | some (.str s) => s
                   | _ => "unknown") sel (some status)
                  ("HTTP " ++ toString status ++ ": " ++ pyTake rbody 200)] },
         [sel.endpoint_id]) := by
    unfold forward_request
    rw [hMAX, forwardLoop_selected_step up db pools pool _ now 9 st "" [] sel pm₁ hsel,
      hEN, runRetries_terminal up sel _ pool now { st with pm := pm₁ } status rbody
        chunks 2 hup hns hnr]
    rfl
  have hlogs1 : (mark_failure { st with pm := pm₁ } sel.endpoint_id now).logs
      = st.logs := mark_failure_logs _ _ _
  have hpm1 : (mark_failure { st with pm := pm₁ } sel.endpoint_id now).pm = pm₁ :=
    mark_failure_pm _ _ _
  refine ⟨by rw [hpath], by rw [hpath], ?_, ?_, ?_, ?_, ?_⟩
  · rw [hpath]
    dsimp only
    rw [hlogs1]
  · intro e he
    rw [hpath]
    dsimp only
    exact mark_failure_stats { st with pm := pm₁ } sel.endpoint_id now e he
  · intro id u hu
    rw [hpath] at hu
    dsimp only at hu
    rw [hpm1] at hu
    have hcd : pm₁.cooldown
        = (filterAvailable st.pm.cooldown now (get_endpoints_by_pool db pool)).2 := by
      have := select_endpoint_cooldown st.pm db pools pool now
      rw [hsel] at this
      exact this
    rw [hcd] at hu
    exact (filterAvailable_cooldown_sub now (get_endpoints_by_pool db pool)
      st.pm.cooldown hwf).2 id u hu
  · apply charsContain_of_startsWith
    have hdata : ("HTTP " ++ toString status ++ ": " ++ pyTake rbody 200).data
        = ("HTTP " ++ toString status).data ++ (": ".data ++ (pyTake rbody 200).data) := by
      simp [String.data_append, List.append_assoc]
    rw [hdata]
    exact charsStartWith_append _ _
  · intro s bdy model msg st' up' db' pools' now' hm hne hfw
    unfold handle_request
    rw [hm]
    dsimp only
    rw [if_neg hne]
    rcases hrun : forward_request st' up' db' pools' (resolve_pool_type s model)
      (dictSet bdy "stream" (.bool true)) true now' with ⟨r, stR, trR⟩
    rw [hrun] at hfw
    simp only at hfw
    subst hfw
    rfl

/-- C2 (witness): the terminal-status theorem applied at the concrete
single-endpoint pool answering 401. -/
theorem C2_terminal_4xx_witness :
    (forward_request { pm := freshPM, stats := [(1, EndpointStats.zero)], logs := [] }
        (fun _ => UpstreamBehavior.respond 401 "unauthorized" [])
        [{ mkEp 1 with pool_type := some PoolType.normal }] [] PoolType.normal
        [("model", Json.str "sonnet")] false 0).1
      = ForwardResult.error "HTTP 401: unauthorized" ∧
    (forward_request { pm := freshPM, stats := [(1, EndpointStats.zero)], logs := [] }
        (fun _ => UpstreamBehavior.respond 401 "unauthorized" [])
        [{ mkEp 1 with pool_type := some PoolType.normal }] [] PoolType.normal
        [("model", Json.str "sonnet")] false 0).2.2 = [1] ∧
    strContains "HTTP 401: unauthorized" "HTTP 401" = true := by
  have h := C2_terminal_4xx
    { pm := freshPM, stats := [(1, EndpointStats.zero)], logs := [] }
    (fun _ => UpstreamBehavior.respond 401 "unauthorized" [])
    [{ mkEp 1 with pool_type := some PoolType.normal }] [] PoolType.normal
    [("model", Json.str "sonnet")] 0
    { endpoint_id := 1, provider_id := 1, provider_name := "prov-on"
      base_url := "http://up", api_key := "key", model_id := "m1"
      api_format := ApiFormat.openai, timeout := 60 }
    { swrr := [(PoolType.normal, [(1, 0)])]
      cooldown := { default_cooldown_seconds := 60, cooldowns := [] } }
    401 "unauthorized" [] (by decide) rfl (by decide) (by decide) (by decide) (by decide)
  exact ⟨h.1, h.2.1, h.2.2.2.2.2.1⟩

end Gateway
